import Mathlib

/-!
Verification of the security/compliance engine of the AgentBay Dashboard SDK
(`SDK/python/hr_agent_sdk/security.py` and `SDK-HR/python/hr_agent_sdk/security.py`).

Python strings are modelled as `List Char`; Python `float` timestamps are
modelled as `ℚ`; `time.time()` is modelled by threading an explicit `now`
parameter through the stateful operations.  Python regular expressions are
modelled by deterministic backtracking parsers over `List Char` that follow
Python's leftmost / greedy-with-backtracking matching discipline.
-/

namespace Sec

/-- Python `str`, modelled as a list of characters. -/
abbrev Str := List Char

/-- ASCII lower-casing (code points 65–90 are shifted to 97–122), as applied
by Python's case-insensitive `(?i)` flag on the ASCII pattern text used in
the source. -/
def toLowerAscii (c : Char) : Char :=
  if 65 ≤ c.toNat ∧ c.toNat ≤ 90 then Char.ofNat (c.toNat + 32) else c

/-- Python regex `\d` (ASCII digits, as relevant for the inputs modelled here). -/
def isDigitC (c : Char) : Bool := c.isDigit

/-- Python regex `\s`: space, tab, newline, carriage return, vertical tab, form feed. -/
def isSpaceC (c : Char) : Bool :=
  c = ' ' || c = '\t' || c = '\n' || c = '\r' || c = Char.ofNat 11 || c = Char.ofNat 12

/-- Python regex `\w`: ASCII alphanumerics and underscore. -/
def isWordC (c : Char) : Bool := c.isAlphanum || c = '_'

/-- Python regex `.` (without `re.DOTALL`): any character except newline. -/
def isDotC (c : Char) : Bool := c ≠ '\n'

/-!
## Backtracking parser combinators

A parser maps an input suffix to the list of possible
`(consumed characters, remaining suffix)` splits, ordered by Python's
backtracking preference (greedy alternatives first).  The regex patterns of
the source are built from single-character classes, literals, optional
pieces, and counted repetitions, all of which are expressible below; the
full candidate lists give exactly Python's backtracking semantics.
-/

/-- Parser: input suffix to preference-ordered `(consumed, rest)` splits. -/
abbrev PM := Str → List (Str × Str)

/-- Match a single character satisfying `p`. -/
def pch (p : Char → Bool) : PM := fun s =>
  match s with
  | [] => []
  | c :: r => if p c then [([c], r)] else []

/-- Match nothing (the empty regex). -/
def pnil : PM := fun s => [([], s)]

/-- Sequencing with full backtracking: every split of `a` continued by `b`. -/
def pseq (a b : PM) : PM := fun s =>
  (a s).flatMap fun pr => (b pr.2).map fun qr => (pr.1 ++ qr.1, qr.2)

/-- Sequencing of a list of parsers, left to right. -/
def pseqs (ps : List PM) : PM := ps.foldr pseq pnil

/-- Greedy `X?`: try consuming `X` first, then the empty alternative. -/
def popt (a : PM) : PM := fun s => a s ++ [([], s)]

/-- `X{n}`: exactly `n` copies of `X` in sequence. -/
def prep (n : Nat) (a : PM) : PM := pseqs (List.replicate n a)

/-- Greedy `C{n,}` for a single-character class `C`: candidates consume the
maximal run of `C`-characters first, backing off down to `n` characters. -/
def patleast (n : Nat) (p : Char → Bool) : PM := fun s =>
  let run := s.takeWhile p
  (List.range' n (run.length + 1 - n)).reverse.map fun k => (run.take k, s.drop k)

/-- Greedy `C*` for a single-character class. -/
def pstar (p : Char → Bool) : PM := patleast 0 p

/-- Greedy `C+` for a single-character class. -/
def pplus (p : Char → Bool) : PM := patleast 1 p

/-- Greedy `C{lo,hi}` for a single-character class. -/
def prange (lo hi : Nat) (p : Char → Bool) : PM := fun s =>
  let run := s.takeWhile p
  let m := min hi run.length
  (List.range' lo (m + 1 - lo)).reverse.map fun k => (run.take k, s.drop k)

/-- Case-sensitive literal. -/
def plits : Str → PM
  | [] => pnil
  | c :: cs => pseq (pch (fun x => x = c)) (plits cs)

/-- Case-insensitive literal (the literal is given in lowercase; an input
character matches when its ASCII lower-casing equals it). -/
def plitsCI : Str → PM
  | [] => pnil
  | c :: cs => pseq (pch (fun x => toLowerAscii x = c)) (plitsCI cs)

/-- Exact single character. -/
def plitc (c : Char) : PM := pch (fun x => x = c)

/-- Number of consecutive leading repetitions of the literal `lit` in `s`
(used for `(lit){n,}` groups); `fuel` bounds the recursion. -/
def countRepAux (lit : Str) : Nat → Str → Nat
  | 0, _ => 0
  | fuel + 1, s =>
    if lit.isPrefixOf s ∧ lit ≠ [] then 1 + countRepAux lit fuel (s.drop lit.length)
    else 0

/-- Greedy `(lit){n,}` for a fixed nonempty literal `lit`. -/
def prepLit (n : Nat) (lit : Str) : PM := fun s =>
  let k := countRepAux lit (s.length + 1) s
  (List.range' n (k + 1 - n)).reverse.map fun j =>
    ((List.replicate j lit).flatten, s.drop (j * lit.length))

/-!
## Word boundaries and the two regex entry points

`re.search` (used for threat rules) only needs a success bit; `re.findall`
(used for PII rules) needs the list of matched substrings and Python's
scan-from-the-left, continue-after-each-match discipline.  `\b` occurs in
the source patterns only at the very start / very end of a pattern, so it is
modelled by boundary checks on the first / last matched character.
-/

/-- Whether an optional preceding character is a word character (`\b` treats
the string edge as a non-word position). -/
def isWordO : Option Char → Bool
  | none => false
  | some c => isWordC c

/-- Whether the first character of a suffix is a word character. -/
def headWord : Str → Bool
  | [] => false
  | c :: _ => isWordC c

/-- `\b` at the start of a match: exactly one of the previous character and
the first matched character is a word character. -/
def startBoundaryOk (prev : Option Char) (s : Str) : Bool :=
  (isWordO prev).xor (headWord s)

/-- `\b` at the end of a match: exactly one of the last matched character
and the following character is a word character. -/
def endBoundaryOk (m rest : Str) : Bool :=
  match m.getLast? with
  | none => false
  | some c => (isWordC c).xor (headWord rest)

/-- A compiled threat rule: its Python source text, its parser, and the end
condition (`$` for the `--` comment rule, trivial otherwise). -/
structure RePat where
  src : String
  pm : PM
  endOk : Str → Bool := fun _ => true

/-- `re.search(pattern, s)` for a threat rule: try each start position from
the left; succeed when some backtracking alternative satisfies `endOk`. -/
def reSearch (p : RePat) : Str → Bool
  | [] => (p.pm []).any fun pr => p.endOk pr.2
  | c :: r => ((p.pm (c :: r)).any fun pr => p.endOk pr.2) || reSearch p r

/-- A compiled PII rule: source text, parser, and whether the pattern is
bracketed by `\b` at its start / end. -/
structure PiiPat where
  src : String
  pm : PM
  startB : Bool := true
  endB : Bool := true

/-- Attempt a match at the current position: check the leading `\b`, then
take the first backtracking alternative whose trailing `\b` holds. -/
def findAt (p : PiiPat) (prev : Option Char) (s : Str) : Option (Str × Str) :=
  if p.startB && !startBoundaryOk prev s then none
  else (p.pm s).find? fun pr => !p.endB || endBoundaryOk pr.1 pr.2

/-- `re.findall` scan: at each position try `findAt`; on a (nonempty) match
record it and continue after it, otherwise advance one character.  `fuel`
bounds the recursion (each step consumes at least one character). -/
def findallAux (p : PiiPat) : Nat → Option Char → Str → List Str
  | 0, _, _ => []
  | fuel + 1, prev, s =>
    match findAt p prev s with
    | some (m, r) =>
      if m.isEmpty then
        match s with
        | [] => []
        | c :: t => findallAux p fuel (some c) t
      else m :: findallAux p fuel m.getLast? r
    | none =>
      match s with
      | [] => []
      | c :: t => findallAux p fuel (some c) t

/-- `re.findall(pattern, s)`: all non-overlapping matches, left to right. -/
def findall (p : PiiPat) (s : Str) : List Str :=
  findallAux p (s.length + 1) none s

/-!
## The threat patterns of `SecurityMonitor._initialize_threat_patterns`
(`SDK/python/hr_agent_sdk/security.py`, lines 26–74), one definition per
regex, in source order.
-/

/-- `(?i)(union\s+select)` -/
def reUnionSelect : RePat :=
  { src := "(?i)(union\\s+select)"
    pm := pseqs [plitsCI "union".toList, pplus isSpaceC, plitsCI "select".toList] }

/-- `(?i)(drop\s+table)` -/
def reDropTable : RePat :=
  { src := "(?i)(drop\\s+table)"
    pm := pseqs [plitsCI "drop".toList, pplus isSpaceC, plitsCI "table".toList] }

/-- `(?i)(insert\s+into)` -/
def reInsertInto : RePat :=
  { src := "(?i)(insert\\s+into)"
    pm := pseqs [plitsCI "insert".toList, pplus isSpaceC, plitsCI "into".toList] }

/-- `(?i)(delete\s+from)` -/
def reDeleteFrom : RePat :=
  { src := "(?i)(delete\\s+from)"
    pm := pseqs [plitsCI "delete".toList, pplus isSpaceC, plitsCI "from".toList] }

/-- `(?i)(update\s+\w+\s+set)` -/
def reUpdateSet : RePat :=
  { src := "(?i)(update\\s+\\w+\\s+set)"
    pm := pseqs [plitsCI "update".toList, pplus isSpaceC, pplus isWordC,
                 pplus isSpaceC, plitsCI "set".toList] }

/-- `(?i)(\'\s*or\s+\'\d+\'\s*=\s*\'\d+)` -/
def reQuotedOr : RePat :=
  { src := "(?i)(\\\x27\\s*or\\s+\\\x27\\d+\\\x27\\s*=\\s*\\\x27\\d+)"
    pm := pseqs [plitc (Char.ofNat 39), pstar isSpaceC, plitsCI "or".toList,
                 pplus isSpaceC, plitc (Char.ofNat 39), pplus isDigitC,
                 plitc (Char.ofNat 39), pstar isSpaceC, plitc '=',
                 pstar isSpaceC, plitc (Char.ofNat 39), pplus isDigitC] }

/-- `(?i)(\'\s*or\s+\d+\s*=\s*\d+)` -/
def reBareOr : RePat :=
  { src := "(?i)(\\\x27\\s*or\\s+\\d+\\s*=\\s*\\d+)"
    pm := pseqs [plitc (Char.ofNat 39), pstar isSpaceC, plitsCI "or".toList,
                 pplus isSpaceC, pplus isDigitC, pstar isSpaceC, plitc '=',
                 pstar isSpaceC, pplus isDigitC] }

/-- `(?i)(--\s*$)`; `$` matches at the end of the string or just before a
trailing newline. -/
def reDashDash : RePat :=
  { src := "(?i)(--\\s*$)"
    pm := pseqs [plits "--".toList, pstar isSpaceC]
    endOk := fun r => r.isEmpty || r == ['\n'] }

/-- `(?i)(/\*.*\*/)` -/
def reSlashStar : RePat :=
  { src := "(?i)(/\\*.*\\*/)"
    pm := pseqs [plits "/*".toList, pstar isDotC, plits "*/".toList] }

/-- `(?i)(<script[^>]*>)` -/
def reScriptTag : RePat :=
  { src := "(?i)(<script[^>]*>)"
    pm := pseqs [plitsCI "<script".toList, pstar (fun c => c ≠ '>'), plitc '>'] }

/-- `(?i)(<iframe[^>]*>)` -/
def reIframeTag : RePat :=
  { src := "(?i)(<iframe[^>]*>)"
    pm := pseqs [plitsCI "<iframe".toList, pstar (fun c => c ≠ '>'), plitc '>'] }

/-- `(?i)(javascript:)` -/
def reJavascript : RePat :=
  { src := "(?i)(javascript:)", pm := plitsCI "javascript:".toList }

/-- `(?i)(on\w+\s*=)` -/
def reOnEvent : RePat :=
  { src := "(?i)(on\\w+\\s*=)"
    pm := pseqs [plitsCI "on".toList, pplus isWordC, pstar isSpaceC, plitc '='] }

/-- `(?i)(<img[^>]*onerror)` -/
def reImgOnerror : RePat :=
  { src := "(?i)(<img[^>]*onerror)"
    pm := pseqs [plitsCI "<img".toList, pstar (fun c => c ≠ '>'),
                 plitsCI "onerror".toList] }

/-- `(?i)(<svg[^>]*onload)` -/
def reSvgOnload : RePat :=
  { src := "(?i)(<svg[^>]*onload)"
    pm := pseqs [plitsCI "<svg".toList, pstar (fun c => c ≠ '>'),
                 plitsCI "onload".toList] }

/-- `(?i)(expression\s*\()` -/
def reExpression : RePat :=
  { src := "(?i)(expression\\s*\\()"
    pm := pseqs [plitsCI "expression".toList, pstar isSpaceC, plitc '('] }

/-- `(?i)(vbscript:)` -/
def reVbscript : RePat :=
  { src := "(?i)(vbscript:)", pm := plitsCI "vbscript:".toList }

/-- `(?i)(;\s*rm\s+-rf)` -/
def reRmRf : RePat :=
  { src := "(?i)(;\\s*rm\\s+-rf)"
    pm := pseqs [plitc ';', pstar isSpaceC, plitsCI "rm".toList,
                 pplus isSpaceC, plitsCI "-rf".toList] }

/-- `(?i)(;\s*cat\s+/etc/passwd)` -/
def reCatPasswd : RePat :=
  { src := "(?i)(;\\s*cat\\s+/etc/passwd)"
    pm := pseqs [plitc ';', pstar isSpaceC, plitsCI "cat".toList,
                 pplus isSpaceC, plitsCI "/etc/passwd".toList] }

/-- `(?i)(;\s*wget\s+)` -/
def reWget : RePat :=
  { src := "(?i)(;\\s*wget\\s+)"
    pm := pseqs [plitc ';', pstar isSpaceC, plitsCI "wget".toList, pplus isSpaceC] }

/-- `(?i)(;\s*curl\s+)` -/
def reCurl : RePat :=
  { src := "(?i)(;\\s*curl\\s+)"
    pm := pseqs [plitc ';', pstar isSpaceC, plitsCI "curl".toList, pplus isSpaceC] }

/-- `(?i)(\|\s*nc\s+)` -/
def rePipeNc : RePat :=
  { src := "(?i)(\\|\\s*nc\\s+)"
    pm := pseqs [plitc '|', pstar isSpaceC, plitsCI "nc".toList, pplus isSpaceC] }

/-- `(?i)(\$\(.*\))` -/
def reDollarParen : RePat :=
  { src := "(?i)(\\$\\(.*\\))"
    pm := pseqs [plitc '$', plitc '(', pstar isDotC, plitc ')'] }

/-- `` (?i)(`.*`) `` -/
def reBacktick : RePat :=
  { src := "(?i)(\x60.*\x60)"
    pm := pseqs [plitc (Char.ofNat 96), pstar isDotC, plitc (Char.ofNat 96)] }

/-- `(?i)(;\s*exec\s+)` -/
def reSemiExec : RePat :=
  { src := "(?i)(;\\s*exec\\s+)"
    pm := pseqs [plitc ';', pstar isSpaceC, plitsCI "exec".toList, pplus isSpaceC] }

/-- `(\.\./){2,}` (case-sensitive) -/
def reDotDotSlash : RePat :=
  { src := "(\\.\\./)\x7b2,\x7d", pm := prepLit 2 "../".toList }

/-- `(\.\.\\){2,}` (case-sensitive; the group is the three characters `..\`) -/
def reDotDotBackslash : RePat :=
  { src := "(\\.\\.\\\\)\x7b2,\x7d", pm := prepLit 2 "..\\".toList }

/-- `(?i)(file://)` -/
def reFileScheme : RePat :=
  { src := "(?i)(file://)", pm := plitsCI "file://".toList }

/-- `(?i)(/etc/passwd)` -/
def reEtcPasswd : RePat :=
  { src := "(?i)(/etc/passwd)", pm := plitsCI "/etc/passwd".toList }

/-- `(?i)(/windows/system32)` -/
def reWinSystem32 : RePat :=
  { src := "(?i)(/windows/system32)", pm := plitsCI "/windows/system32".toList }

/-- `(?i)(\.\.%2f)` -/
def reDotDotPct2f : RePat :=
  { src := "(?i)(\\.\\.%2f)", pm := plitsCI "..%2f".toList }

/-- `(?i)(\.\.%5c)` -/
def reDotDotPct5c : RePat :=
  { src := "(?i)(\\.\\.%5c)", pm := plitsCI "..%5c".toList }

/-- `_initialize_threat_patterns` (lines 33–74): the ordered dictionary of
threat categories and their pattern lists. -/
def threatPatterns : List (String × List RePat) :=
  [("sql_injection",
    [reUnionSelect, reDropTable, reInsertInto, reDeleteFrom, reUpdateSet,
     reQuotedOr, reBareOr, reDashDash, reSlashStar]),
   ("xss",
    [reScriptTag, reIframeTag, reJavascript, reOnEvent, reImgOnerror,
     reSvgOnload, reExpression, reVbscript]),
   ("command_injection",
    [reRmRf, reCatPasswd, reWget, reCurl, rePipeNc, reDollarParen,
     reBacktick, reSemiExec]),
   ("path_traversal",
    [reDotDotSlash, reDotDotBackslash, reFileScheme, reEtcPasswd,
     reWinSystem32, reDotDotPct2f, reDotDotPct5c])]

/-!
## The PII patterns of `SecurityMonitor._initialize_pii_patterns`
(`SDK/python/hr_agent_sdk/security.py`, lines 76–90).
-/

/-- Class `[A-Za-z0-9._%+-]` (email local part). -/
def emailLocalC (c : Char) : Bool :=
  c.isAlphanum || c = '.' || c = '_' || c = '%' || c = '+' || c = '-'

/-- Class `[A-Za-z0-9.-]` (email domain). -/
def emailDomC (c : Char) : Bool := c.isAlphanum || c = '.' || c = '-'

/-- Class `[A-Z|a-z]` (email TLD; the class literally contains `|`). -/
def tldC (c : Char) : Bool := c.isAlpha || c = '|'

/-- Class `[-.\s]` (phone separators). -/
def phoneSepC (c : Char) : Bool := c = '-' || c = '.' || isSpaceC c

/-- Class `[-\s]` (credit-card separators). -/
def ccSepC (c : Char) : Bool := c = '-' || isSpaceC c

/-- Class `[-\w.]` (URL host characters). -/
def urlHostC (c : Char) : Bool := c = '-' || isWordC c || c = '.'

/-- Class `[:\d]` (URL port characters). -/
def urlPortC (c : Char) : Bool := c = ':' || c.isDigit

/-- Class `[\w/_.]` (URL path characters). -/
def urlPathC (c : Char) : Bool := isWordC c || c = '/' || c = '.'

/-- Class `[\w&=%.]` (URL query characters). -/
def urlQueryC (c : Char) : Bool := isWordC c || c = '&' || c = '=' || c = '%' || c = '.'

/-- `\b[A-Za-z0-9._%+-]+@[A-Za-z0-9.-]+\.[A-Z|a-z]{2,}\b` -/
def piiEmail : PiiPat :=
  { src := "\\b[A-Za-z0-9._%+-]+@[A-Za-z0-9.-]+\\.[A-Z|a-z]\x7b2,\x7d\\b"
    pm := pseqs [pplus emailLocalC, plitc '@', pplus emailDomC, plitc '.',
                 patleast 2 tldC] }

/-- `\b(?:\+?1[-.\s]?)?\(?\d{3}\)?[-.\s]?\d{3}[-.\s]?\d{4}\b` -/
def piiPhone : PiiPat :=
  { src := "\\b(?:\\+?1[-.\\s]?)?\\(?\\d\x7b3\x7d\\)?[-.\\s]?\\d\x7b3\x7d[-.\\s]?\\d\x7b4\x7d\\b"
    pm := pseqs [popt (pseqs [popt (plitc '+'), plitc '1', popt (pch phoneSepC)]),
                 popt (plitc '('), prep 3 (pch isDigitC), popt (plitc ')'),
                 popt (pch phoneSepC), prep 3 (pch isDigitC),
                 popt (pch phoneSepC), prep 4 (pch isDigitC)] }

/-- `\b\d{3}-\d{2}-\d{4}\b` -/
def piiSsn : PiiPat :=
  { src := "\\b\\d\x7b3\x7d-\\d\x7b2\x7d-\\d\x7b4\x7d\\b"
    pm := pseqs [prep 3 (pch isDigitC), plitc '-', prep 2 (pch isDigitC),
                 plitc '-', prep 4 (pch isDigitC)] }

/-- `\b(?:\d{4}[-\s]?){3}\d{4}\b` -/
def piiCreditCard : PiiPat :=
  { src := "\\b(?:\\d\x7b4\x7d[-\\s]?)\x7b3\x7d\\d\x7b4\x7d\\b"
    pm := pseqs [prep 3 (pseqs [prep 4 (pch isDigitC), popt (pch ccSepC)]),
                 prep 4 (pch isDigitC)] }

/-- `\b(?:\d{1,3}\.){3}\d{1,3}\b` -/
def piiIpAddr : PiiPat :=
  { src := "\\b(?:\\d\x7b1,3\x7d\\.)\x7b3\x7d\\d\x7b1,3\x7d\\b"
    pm := pseqs [prep 3 (pseqs [prange 1 3 isDigitC, plitc '.']),
                 prange 1 3 isDigitC] }

/-- `https?://(?:[-\w.])+(?:[:\d]+)?(?:/(?:[\w/_.])*)?(?:\?(?:[\w&=%.])*)?(?:#(?:\w)*)?`
(no word boundaries). -/
def piiUrl : PiiPat :=
  { src := "https?://(?:[-\\w.])+(?:[:\\d]+)?(?:/(?:[\\w/_.])*)?(?:\\?(?:[\\w&=%.])*)?(?:#(?:\\w)*)?"
    pm := pseqs [plits "http".toList, popt (plitc 's'), plits "://".toList,
                 pplus urlHostC, popt (pplus urlPortC),
                 popt (pseqs [plitc '/', pstar urlPathC]),
                 popt (pseqs [plitc '?', pstar urlQueryC]),
                 popt (pseqs [plitc '#', pstar isWordC])]
    startB := false
    endB := false }

/-- `_initialize_pii_patterns` (lines 83–90): the ordered dictionary of PII
types and patterns. -/
def piiPatterns : List (String × PiiPat) :=
  [("email", piiEmail), ("phone", piiPhone), ("ssn", piiSsn),
   ("credit_card", piiCreditCard), ("ip_address", piiIpAddr), ("url", piiUrl)]

/-!
## Data model of `SecurityMonitor` (SDK variant)
-/

/-- A `threat_info` dictionary (lines 114–118). -/
structure ThreatInfo where
  type : String
  pattern : String
  severity : String
deriving DecidableEq, Repr

/-- A `pii_info` dictionary (lines 169–174).  `matchList` models the
`matches` key (`matches` is a reserved word in Lean). -/
structure PiiInfo where
  type : String
  count : Nat
  matchList : List Str
  severity : String
deriving DecidableEq, Repr

/-- Event metadata dictionaries: the shapes actually constructed by the
source (empty `{}` default, the threat-detection metadata of lines 135–139,
and the pii-detection metadata of lines 193–197). -/
inductive EvMeta where
  | emptyMeta
  | threat (operation : Str) (threats : List ThreatInfo) (content_length : Nat)
  | pii (pii_types : List String) (total_pii_count : Nat) (text_length : Nat)
deriving DecidableEq, Repr

/-- A security-event dictionary (lines 229–236). -/
structure SecEvent where
  id : Nat
  event_type : String
  description : Str
  severity : String
  metadata : EvMeta
  timestamp : ℚ
deriving DecidableEq, Repr

/-- A compliance-event dictionary (lines 262–269). -/
structure ComplianceEvent where
  id : Nat
  compliance_type : String
  status : String
  details : Str
  metadata : EvMeta
  timestamp : ℚ
deriving DecidableEq, Repr

/-- The mutable state of a `SecurityMonitor` instance.  The two pattern
tables are per-instance in the source but always equal to the constants
above, so they are kept global here. -/
structure Monitor where
  security_events : List SecEvent
  compliance_logs : List ComplianceEvent
  event_counts : String → Nat
  severity_counts : String → Nat

/-- `SecurityMonitor.__init__`: empty logs, zero counters. -/
def mon0 : Monitor :=
  { security_events := [], compliance_logs := []
    event_counts := fun _ => 0, severity_counts := fun _ => 0 }

/-- The capacity trim applied after each append (lines 242–244 and 273–275):
`if len(xs) > 1000: xs = xs[-1000:]`. -/
def trimCap (l : List α) : List α :=
  if l.length > 1000 then l.drop (l.length - 1000) else l

/-- `_get_threat_severity` (lines 307–323): `severity_map.get(threat_type, "medium")`. -/
def getThreatSeverity (t : String) : String :=
  if t = "sql_injection" then "critical"
  else if t = "command_injection" then "critical"
  else if t = "xss" then "high"
  else if t = "path_traversal" then "high"
  else "medium"

/-- `_get_pii_severity` (lines 325–343): `severity_map.get(pii_type, "medium")`. -/
def getPiiSeverity (t : String) : String :=
  if t = "ssn" then "critical"
  else if t = "credit_card" then "critical"
  else if t = "email" then "medium"
  else if t = "phone" then "medium"
  else if t = "ip_address" then "low"
  else if t = "url" then "low"
  else "medium"

/-- The running-severity update of `analyze_request_security` (lines 121–127):
the `if`/`elif` chain over the new match's severity. -/
def updateSev (sv nv : String) : String :=
  if nv = "critical" then "critical"
  else if nv = "high" ∧ sv ≠ "critical" then "high"
  else if nv = "medium" ∧ ¬(sv = "critical" ∨ sv = "high") then "medium"
  else sv

/-- `log_security_event` (lines 213–244).  The new event's id is
`len(self.security_events) + 1`; the event is appended and the list trimmed
to its last 1000 entries; the two counters are bumped. -/
def log_security_event (m : Monitor) (event_type : String) (description : Str)
    (severity : String) (metadata : EvMeta) (now : ℚ) : Monitor :=
  let event : SecEvent :=
    { id := m.security_events.length + 1, event_type := event_type
      description := description, severity := severity
      metadata := metadata, timestamp := now }
  { m with
    security_events := trimCap (m.security_events ++ [event])
    event_counts := fun t =>
      if t = event_type then m.event_counts t + 1 else m.event_counts t
    severity_counts := fun t =>
      if t = severity then m.severity_counts t + 1 else m.severity_counts t }

/-- `log_compliance_event` (lines 246–275). -/
def log_compliance_event (m : Monitor) (compliance_type : String) (status : String)
    (details : Str) (metadata : EvMeta) (now : ℚ) : Monitor :=
  let event : ComplianceEvent :=
    { id := m.compliance_logs.length + 1, compliance_type := compliance_type
      status := status, details := details
      metadata := metadata, timestamp := now }
  { m with compliance_logs := trimCap (m.compliance_logs ++ [event]) }

/-!
## `analyze_request_security` (lines 92–151)
-/

/-- A `request_data` dictionary; each value is modelled by the string its
`str()` conversion produces. -/
abbrev RequestData := List (String × Str)

/-- `str(request_data.get("content", ""))` (line 108). -/
def dictGetContent (r : RequestData) : Str :=
  match r.find? (fun kv => kv.1 = "content") with
  | some kv => kv.2
  | none => []

/-- The f-string `"Detected {n} security threats in {operation}"` (line 133). -/
def descThreat (n : Nat) (operation : Str) : Str :=
  "Detected ".toList ++ (toString n).toList ++ " security threats in ".toList ++ operation

/-- The result dictionary of `analyze_request_security` (lines 144–151).
`analysis_time_ms` is modelled as `0`: the analysis is pure, so no model
time elapses between the two `time.time()` calls. -/
structure ThreatResult where
  threats_detected : List ThreatInfo
  threat_count : Nat
  severity : String
  safe : Bool
  analysis_time_ms : ℚ
  timestamp : ℚ
deriving DecidableEq, Repr

/-- The scanning loop of `analyze_request_security` (lines 110–127): for
every category and every pattern, on a match append a `ThreatInfo` and
update the running severity. -/
def threatScan (content : Str) : List ThreatInfo × String :=
  threatPatterns.foldl
    (fun st tp => tp.2.foldl
      (fun st2 p =>
        if reSearch p content then
          (st2.1 ++ [{ type := tp.1, pattern := p.src
                       severity := getThreatSeverity tp.1 : ThreatInfo }],
           updateSev st2.2 (getThreatSeverity tp.1))
        else st2)
      st)
    (([] : List ThreatInfo), "low")

/-- `analyze_request_security` (lines 92–151): scan the content, log one
security event when any threats were detected, and return the result. -/
def analyze_request_security (m : Monitor) (operation : Str)
    (request_data : RequestData) (now : ℚ) : ThreatResult × Monitor :=
  let content := dictGetContent request_data
  let scan := threatScan content
  let threats_detected := scan.1
  let severity := scan.2
  let m2 :=
    if threats_detected.isEmpty then m
    else log_security_event m "threat_detection"
      (descThreat threats_detected.length operation) severity
      (EvMeta.threat operation threats_detected content.length) now
  ({ threats_detected := threats_detected
     threat_count := threats_detected.length
     severity := severity
     safe := threats_detected.length == 0
     analysis_time_ms := 0, timestamp := now }, m2)

/-!
## `check_data_privacy` (lines 153–211)
-/

/-- The result dictionary of `check_data_privacy` (lines 202–211). -/
structure PrivacyResult where
  pii_detected : List PiiInfo
  pii_types_count : Nat
  total_pii_instances : Nat
  compliance_status : String
  severity : String
  privacy_safe : Bool
  analysis_time_ms : ℚ
  timestamp : ℚ
deriving DecidableEq, Repr

/-- One iteration of the PII loop (lines 166–175): the `pii_info` appended
for a given type, or nothing when `re.findall` found no matches. -/
def piiBucket (t : String) (p : PiiPat) (text : Str) : List PiiInfo :=
  let ms := findall p text
  if ms.isEmpty then []
  else [{ type := t, count := ms.length, matchList := ms.take 5
          severity := getPiiSeverity t }]

/-- The full `pii_detected` list, in the iteration order of the
`pii_patterns` dictionary. -/
def scanPii (text : Str) : List PiiInfo :=
  piiBucket "email" piiEmail text ++ piiBucket "phone" piiPhone text ++
  piiBucket "ssn" piiSsn text ++ piiBucket "credit_card" piiCreditCard text ++
  piiBucket "ip_address" piiIpAddr text ++ piiBucket "url" piiUrl text

/-- The f-string `"Detected {n} types of PII in data"` (line 192). -/
def descPii (n : Nat) : Str :=
  "Detected ".toList ++ (toString n).toList ++ " types of PII in data".toList

/-- `sum(pii["count"] for pii in pii_detected)` (lines 195 and 205). -/
def totalPiiCount (l : List PiiInfo) : Nat := (l.map (·.count)).sum

/-- `check_data_privacy` (lines 153–211): scan for PII, derive the
compliance status, always log one compliance event, return the result. -/
def check_data_privacy (m : Monitor) (text : Str) (now : ℚ) :
    PrivacyResult × Monitor :=
  let pii_detected := scanPii text
  let hasHigh := pii_detected.any fun pii =>
    pii.severity = "high" || pii.severity = "critical"
  let compliance_status :=
    if hasHigh then "non_compliant"
    else if !pii_detected.isEmpty then "warning"
    else "compliant"
  let severity :=
    if hasHigh then "high"
    else if !pii_detected.isEmpty then "medium"
    else "low"
  let m2 := log_compliance_event m "pii_detection" compliance_status
    (descPii pii_detected.length)
    (EvMeta.pii (pii_detected.map (·.type)) (totalPiiCount pii_detected)
      text.length) now
  ({ pii_detected := pii_detected
     pii_types_count := pii_detected.length
     total_pii_instances := totalPiiCount pii_detected
     compliance_status := compliance_status
     severity := severity
     privacy_safe := pii_detected.length == 0
     analysis_time_ms := 0, timestamp := now }, m2)

/-!
## Score calculation (lines 345–412)
-/

/-- One event's deduction (lines 364–373): the `if`/`elif` chain adds
nothing for severities outside the four known ones. -/
def deductionOf (sev : String) : ℤ :=
  if sev = "critical" then 20
  else if sev = "high" then 10
  else if sev = "medium" then 5
  else if sev = "low" then 1
  else 0

/-- Python's `round` to the nearest integer (banker's rounding:
ties go to the even integer). -/
def bankersRound (q : ℚ) : ℤ :=
  let f := ⌊q⌋
  let frac := q - f
  if frac < 1/2 then f
  else if frac > 1/2 then f + 1
  else if f % 2 = 0 then f else f + 1

/-- Python's `round(q, 1)`. -/
def round1 (q : ℚ) : ℚ := (bankersRound (q * 10) : ℚ) / 10

/-- `_calculate_security_score` (lines 345–376). -/
def calcSecurityScore (m : Monitor) (now : ℚ) : ℚ :=
  if m.security_events.isEmpty then 100
  else
    let recent := m.security_events.filter fun e => e.timestamp > now - 86400
    let deductions := recent.foldl (fun acc e => acc + deductionOf e.severity) (0 : ℤ)
    let score : ℤ := max 0 (100 - deductions)
    round1 (score : ℚ)

/-- `_calculate_compliance_score` (lines 378–412). -/
def calcComplianceScore (m : Monitor) (now : ℚ) : ℚ :=
  if m.compliance_logs.isEmpty then 100
  else
    let recent := m.compliance_logs.filter fun e => e.timestamp > now - 86400
    if recent.isEmpty then 100
    else
      let compliant_count := (recent.filter fun e => e.status = "compliant").length
      let warning_count := (recent.filter fun e => e.status = "warning").length
      let non_compliant_count :=
        (recent.filter fun e => e.status = "non_compliant").length
      let total_logs := recent.length
      round1 (((compliant_count : ℚ) * 100 + (warning_count : ℚ) * 50 +
               (non_compliant_count : ℚ) * 0) / (total_logs : ℚ))

/-!
## The SDK-HR variant (`SDK-HR/python/hr_agent_sdk/security.py`):
`_mask_sensitive_data` (lines 154–160) and `check_data_privacy`
(lines 125–152).
-/

/-- `_mask_sensitive_data` (SDK-HR lines 154–160): values of length ≤ 4 are
fully starred; longer values keep their first two and last two characters. -/
def maskSensitiveData (data : Str) : Str :=
  if data.length ≤ 4 then List.replicate data.length '*'
  else data.take 2 ++ List.replicate (data.length - 4) '*' ++ data.drop (data.length - 2)

/-- Class `[-.]` (SDK-HR phone separators). -/
def hrPhoneSepC (c : Char) : Bool := c = '-' || c = '.'

/-- SDK-HR `\b\d{3}[-.]?\d{3}[-.]?\d{4}\b` (line 134). -/
def hrPiiPhone : PiiPat :=
  { src := "\\b\\d\x7b3\x7d[-.]?\\d\x7b3\x7d[-.]?\\d\x7b4\x7d\\b"
    pm := pseqs [prep 3 (pch isDigitC), popt (pch hrPhoneSepC),
                 prep 3 (pch isDigitC), popt (pch hrPhoneSepC),
                 prep 4 (pch isDigitC)] }

/-- SDK-HR `\b\d{4}[-\s]?\d{4}[-\s]?\d{4}[-\s]?\d{4}\b` (line 136). -/
def hrPiiCreditCard : PiiPat :=
  { src := "\\b\\d\x7b4\x7d[-\\s]?\\d\x7b4\x7d[-\\s]?\\d\x7b4\x7d[-\\s]?\\d\x7b4\x7d\\b"
    pm := pseqs [prep 4 (pch isDigitC), popt (pch ccSepC),
                 prep 4 (pch isDigitC), popt (pch ccSepC),
                 prep 4 (pch isDigitC), popt (pch ccSepC),
                 prep 4 (pch isDigitC)] }

/-- A finding of the SDK-HR `check_data_privacy` (lines 142–146). -/
structure HrFinding where
  type : String
  count : Nat
  samples : List Str
deriving DecidableEq, Repr

/-- The result of the SDK-HR `check_data_privacy` (lines 148–152). -/
structure HrPrivacyResult where
  has_pii : Bool
  findings : List HrFinding
  risk_level : String
deriving DecidableEq, Repr

/-- One iteration of the SDK-HR PII loop (lines 139–146): samples are the
first three matches, each passed through `_mask_sensitive_data`. -/
def hrBucket (t : String) (p : PiiPat) (text : Str) : List HrFinding :=
  let ms := findall p text
  if ms.isEmpty then []
  else [{ type := t, count := ms.length
          samples := (ms.take 3).map maskSensitiveData }]

/-- SDK-HR `check_data_privacy` (lines 125–152); its pattern dictionary
(lines 132–137) shares the email and SSN patterns with the SDK variant. -/
def hrCheckDataPrivacy (text : Str) : HrPrivacyResult :=
  let findings :=
    hrBucket "email" piiEmail text ++ hrBucket "phone" hrPiiPhone text ++
    hrBucket "ssn" piiSsn text ++ hrBucket "credit_card" hrPiiCreditCard text
  { has_pii := findings.length > 0
    findings := findings
    risk_level := if findings.length > 0 then "high" else "low" }

/-!
## Lemmas about the capacity trim
-/

/-- The last `n` elements of a list. -/
def lastN (n : Nat) (l : List α) : List α := l.drop (l.length - n)

/-!
## A pure model of id assignment and of the description sequence
-/

/-- Ids of the log after one append: the new id is `length + 1`, then the
capacity trim is applied. -/
def idStep (l : List Nat) : List Nat := trimCap (l ++ [l.length + 1])

/-- Ids of the log after `n` appends into an empty log. -/
def idIter : Nat → List Nat
  | 0 => []
  | n + 1 => idStep (idIter n)

/-- `n` successive `log_security_event` calls with fixed arguments. -/
def secAppendN : Nat → Monitor
  | 0 => mon0
  | n + 1 => log_security_event (secAppendN n) "manual_check" [] "low" EvMeta.emptyMeta 0

/-- `n` successive `log_compliance_event` calls with fixed arguments. -/
def complAppendN : Nat → Monitor
  | 0 => mon0
  | n + 1 => log_compliance_event (complAppendN n) "audit" "compliant" [] EvMeta.emptyMeta 0

/-- Fold of `log_security_event` over a list of descriptions. -/
def appendSecDescs (m : Monitor) (ds : List Str) : Monitor :=
  ds.foldl (fun acc d => log_security_event acc "manual_check" d "low" EvMeta.emptyMeta 0) m

/-- Fold of `log_compliance_event` over a list of detail strings. -/
def appendComplDetails (m : Monitor) (ds : List Str) : Monitor :=
  ds.foldl (fun acc d => log_compliance_event acc "audit" "compliant" d EvMeta.emptyMeta 0) m

/-!
## The running-severity update computes the maximum severity
-/

/-- The four severity strings, in ascending order. -/
def sevList : List String := ["low", "medium", "high", "critical"]

/-- Rank of a severity in the order low < medium < high < critical. -/
def sevRank (s : String) : Nat :=
  if s = "critical" then 3 else if s = "high" then 2 else if s = "medium" then 1 else 0

/-- Specification-side binary maximum of two severities. -/
def sevMax (a b : String) : String := if sevRank a < sevRank b then b else a

/-- Specification-side maximum severity of a list, defaulting to `"low"`. -/
def maxSeverity (l : List String) : String := l.foldl sevMax "low"

/-!
## Characterization of the threat-scanning loop
-/

/-- The flattened (category, rule) list, in scan order. -/
def threatRules : List (String × RePat) :=
  threatPatterns.flatMap fun tp => tp.2.map fun p => (tp.1, p)

/-- The `threat_info` built for a matched rule. -/
def mkThreatInfo (cp : String × RePat) : ThreatInfo :=
  { type := cp.1, pattern := cp.2.src, severity := getThreatSeverity cp.1 }

/-- One step of the scanning loop, over a flattened (category, rule) pair. -/
def scanStep (content : Str) (st : List ThreatInfo × String)
    (cp : String × RePat) : List ThreatInfo × String :=
  if reSearch cp.2 content then
    (st.1 ++ [mkThreatInfo cp], updateSev st.2 (getThreatSeverity cp.1))
  else st

/-- The rules whose pattern matches the content, in scan order. -/
def matchedRules (content : Str) : List (String × RePat) :=
  threatRules.filter fun cp => reSearch cp.2 content

/-- The previous character after scanning past `pre`, starting from context
`prev`. -/
def prevAt (prev : Option Char) (pre : Str) : Option Char :=
  match pre.getLast? with
  | some c => some c
  | none => prev

/-- The claim-side security-score formula: 100 minus per-event deductions
over the 24-hour window, clamped to [0, 100]. -/
def specSecScore (m : Monitor) (now : ℚ) : ℚ :=
  ((min 100 (max 0 (100 -
    ((m.security_events.filter fun e => e.timestamp > now - 86400).map
      fun e => deductionOf e.severity).sum)) : ℤ) : ℚ)

/-- The 1050 distinct payloads used for the C3 scenario. -/
def c3Descs : List Str := (List.range 1050).map fun i => (toString i).toList

/-- A monitor whose only events are older than the 24-hour window. -/
def c8WitnessMonitor : Monitor :=
  { security_events := [{ id := 1, event_type := "manual_check",
                          description := [], severity := "high",
                          metadata := EvMeta.emptyMeta, timestamp := 0 }],
    compliance_logs := [{ id := 1, compliance_type := "audit",
                          status := "warning", details := [],
                          metadata := EvMeta.emptyMeta, timestamp := 0 }],
    event_counts := fun _ => 0,
    severity_counts := fun _ => 0 }

/-!
## Theorems
-/

theorem trimCap_eq_lastN (l : List α) : trimCap l = lastN 1000 l := by
  by_cases h : l.length > 1000
  · simp [trimCap, lastN, h]
  · have h0 : l.length - 1000 = 0 := by omega
    simp [trimCap, lastN, h, h0]

theorem length_lastN_le (n : Nat) (l : List α) : (lastN n l).length ≤ n := by
  simp only [lastN, List.length_drop]; omega

theorem length_trimCap_le (l : List α) : (trimCap l).length ≤ 1000 := by
  rw [trimCap_eq_lastN]; exact length_lastN_le 1000 l

theorem lastN_lastN_append (n : Nat) (a b : List α) :
    lastN n (lastN n a ++ b) = lastN n (a ++ b) := by
  simp only [lastN, List.length_append, List.length_drop,
    List.drop_append_eq_append_drop, List.drop_drop]
  have h1 : a.length - n + (a.length - (a.length - n) + b.length - n) =
      a.length + b.length - n := by omega
  have h2 : a.length - (a.length - n) + b.length - n - (a.length - (a.length - n)) =
      a.length + b.length - n - a.length := by omega
  rw [h1, h2]

theorem map_trimCap (f : α → β) (l : List α) :
    (trimCap l).map f = trimCap (l.map f) := by
  simp [trimCap_eq_lastN, lastN, List.map_drop, List.length_map]

theorem secIds_log (m : Monitor) (et : String) (d : Str) (sv : String)
    (md : EvMeta) (now : ℚ) :
    (log_security_event m et d sv md now).security_events.map (·.id)
      = idStep (m.security_events.map (·.id)) := by
  simp [log_security_event, idStep, map_trimCap, List.length_map]

theorem complIds_log (m : Monitor) (ct st : String) (d : Str)
    (md : EvMeta) (now : ℚ) :
    (log_compliance_event m ct st d md now).compliance_logs.map (·.id)
      = idStep (m.compliance_logs.map (·.id)) := by
  simp [log_compliance_event, idStep, map_trimCap, List.length_map]

theorem secIds_appendN (n : Nat) :
    (secAppendN n).security_events.map (·.id) = idIter n := by
  induction n with
  | zero => rfl
  | succ k ih => rw [secAppendN, secIds_log, ih, idIter]

theorem complIds_appendN (n : Nat) :
    (complAppendN n).compliance_logs.map (·.id) = idIter n := by
  induction n with
  | zero => rfl
  | succ k ih => rw [complAppendN, complIds_log, ih, idIter]

theorem idIter_of_le_1000 (n : Nat) (h : n ≤ 1000) :
    idIter n = List.range' 1 n := by
  induction n with
  | zero => rfl
  | succ k ih =>
    rw [idIter, ih (by omega), idStep, List.length_range']
    have hlen : (List.range' 1 k ++ [k + 1]).length = k + 1 := by
      simp [List.length_range']
    unfold trimCap
    rw [hlen, if_neg (by omega), List.range'_concat]
    simp [Nat.add_comm]

theorem idIter_1001 : idIter 1001 = List.range' 2 1000 := by
  have h : idIter 1001 = idStep (idIter 1000) := rfl
  rw [h, idIter_of_le_1000 1000 (by omega), idStep, List.length_range']
  have hlen : (List.range' 1 1000 ++ [1000 + 1]).length = 1001 := by
    simp [List.length_range']
  unfold trimCap
  rw [hlen, if_pos (by omega)]
  have h1 : (1001 : Nat) - 1000 = 1 := by omega
  rw [h1, List.drop_append_of_le_length (by simp [List.length_range'])]
  have h2 : List.range' 1 1000 = 1 :: List.range' 2 999 := by
    have := List.range'_succ 1 999 1
    simpa using this
  have h3 : List.range' 2 1000 = List.range' 2 999 ++ [1001] := by
    have := @List.range'_concat 1 2 999
    simpa using this
  rw [h2, h3]
  simp

theorem idIter_1002 : idIter 1002 = List.range' 3 999 ++ [1001] := by
  have h : idIter 1002 = idStep (idIter 1001) := rfl
  rw [h, idIter_1001, idStep, List.length_range']
  have hlen : (List.range' 2 1000 ++ [1000 + 1]).length = 1001 := by
    simp [List.length_range']
  unfold trimCap
  rw [hlen, if_pos (by omega)]
  have h1 : (1001 : Nat) - 1000 = 1 := by omega
  rw [h1, List.drop_append_of_le_length (by simp [List.length_range'])]
  have h2 : List.range' 2 1000 = 2 :: List.range' 3 999 := by
    have := List.range'_succ 2 999 1
    simpa using this
  rw [h2]
  simp

/-- The id lists produced by up to 1001 appends, in closed form. -/
theorem idIter_closed (n : Nat) (h : n ≤ 1001) :
    idIter n = if n ≤ 1000 then List.range' 1 n else List.range' 2 1000 := by
  by_cases h1 : n ≤ 1000
  · rw [if_pos h1, idIter_of_le_1000 n h1]
  · have : n = 1001 := by omega
    rw [if_neg h1, this, idIter_1001]

theorem secDescs_appendSecDescs (ds : List Str) (m : Monitor)
    (hm : m.security_events.length ≤ 1000) :
    (appendSecDescs m ds).security_events.map (·.description)
      = lastN 1000 (m.security_events.map (·.description) ++ ds) := by
  induction ds generalizing m with
  | nil =>
    have h0 : m.security_events.length - 1000 = 0 := by omega
    simp [appendSecDescs, lastN, h0]
  | cons d ds ih =>
    have hstep : (log_security_event m "manual_check" d "low" EvMeta.emptyMeta 0
        |>.security_events.length) ≤ 1000 := length_trimCap_le _
    have hd : (log_security_event m "manual_check" d "low" EvMeta.emptyMeta 0
        |>.security_events.map (·.description))
        = lastN 1000 (m.security_events.map (·.description) ++ [d]) := by
      rw [← trimCap_eq_lastN]
      simp [log_security_event, map_trimCap]
    calc (appendSecDescs m (d :: ds)).security_events.map (·.description)
        = lastN 1000 ((log_security_event m "manual_check" d "low" EvMeta.emptyMeta 0
            |>.security_events.map (·.description)) ++ ds) := by
          rw [← ih _ hstep]; rfl
      _ = lastN 1000 (m.security_events.map (·.description) ++ (d :: ds)) := by
          rw [hd, lastN_lastN_append]
          simp

theorem complDetails_appendComplDetails (ds : List Str) (m : Monitor)
    (hm : m.compliance_logs.length ≤ 1000) :
    (appendComplDetails m ds).compliance_logs.map (·.details)
      = lastN 1000 (m.compliance_logs.map (·.details) ++ ds) := by
  induction ds generalizing m with
  | nil =>
    have h0 : m.compliance_logs.length - 1000 = 0 := by omega
    simp [appendComplDetails, lastN, h0]
  | cons d ds ih =>
    have hstep : (log_compliance_event m "audit" "compliant" d EvMeta.emptyMeta 0
        |>.compliance_logs.length) ≤ 1000 := length_trimCap_le _
    have hd : (log_compliance_event m "audit" "compliant" d EvMeta.emptyMeta 0
        |>.compliance_logs.map (·.details))
        = lastN 1000 (m.compliance_logs.map (·.details) ++ [d]) := by
      rw [← trimCap_eq_lastN]
      simp [log_compliance_event, map_trimCap]
    calc (appendComplDetails m (d :: ds)).compliance_logs.map (·.details)
        = lastN 1000 ((log_compliance_event m "audit" "compliant" d EvMeta.emptyMeta 0
            |>.compliance_logs.map (·.details)) ++ ds) := by
          rw [← ih _ hstep]; rfl
      _ = lastN 1000 (m.compliance_logs.map (·.details) ++ (d :: ds)) := by
          rw [hd, lastN_lastN_append]
          simp

theorem updateSev_eq_sevMax :
    ∀ sv ∈ sevList, ∀ nv ∈ sevList, updateSev sv nv = sevMax sv nv := by decide

theorem sevMax_mem {a b : String} (ha : a ∈ sevList) (hb : b ∈ sevList) :
    sevMax a b ∈ sevList := by
  unfold sevMax; split
  · exact hb
  · exact ha

theorem getThreatSeverity_mem (t : String) : getThreatSeverity t ∈ sevList := by
  unfold getThreatSeverity
  split_ifs <;> simp [sevList]

theorem foldl_updateSev_eq_sevMax (l : List String) (hl : ∀ x ∈ l, x ∈ sevList) :
    ∀ sv ∈ sevList, l.foldl updateSev sv = l.foldl sevMax sv := by
  induction l with
  | nil => intro sv _; rfl
  | cons a l ih =>
    intro sv hsv
    have ha : a ∈ sevList := hl a (by simp)
    rw [List.foldl_cons, List.foldl_cons, updateSev_eq_sevMax sv hsv a ha]
    exact ih (fun x hx => hl x (by simp [hx])) _ (sevMax_mem hsv ha)

theorem threatScan_eq_foldl (content : Str) :
    threatScan content = threatRules.foldl (scanStep content) ([], "low") := rfl

theorem scanFold_char (content : Str) (rules : List (String × RePat)) :
    ∀ acc : List ThreatInfo × String,
      rules.foldl (scanStep content) acc
        = (acc.1 ++ ((rules.filter fun cp => reSearch cp.2 content).map mkThreatInfo),
           ((rules.filter fun cp => reSearch cp.2 content).map
             (fun cp => getThreatSeverity cp.1)).foldl updateSev acc.2) := by
  induction rules with
  | nil => intro acc; simp
  | cons r rs ih =>
    intro acc
    by_cases h : reSearch r.2 content
    · simp [scanStep, h, ih]
    · simp [scanStep, h, ih]

/-- The scanning loop returns exactly the matched rules' infos, and the
`if`/`elif` severity chain folded over their severities. -/
theorem threatScan_char (content : Str) :
    threatScan content
      = ((matchedRules content).map mkThreatInfo,
         maxSeverity ((matchedRules content).map fun cp => getThreatSeverity cp.1)) := by
  rw [threatScan_eq_foldl, scanFold_char]
  simp only [List.nil_append, matchedRules]
  congr 1
  exact foldl_updateSev_eq_sevMax _
    (by
      intro x hx
      simp only [List.mem_map] at hx
      obtain ⟨cp, _, rfl⟩ := hx
      exact getThreatSeverity_mem cp.1)
    "low" (by simp [sevList])

/-!
## Character-level lemmas
-/

theorem char_eq_of_toNat_eq {c d : Char} (h : c.toNat = d.toNat) : c = d :=
  Char.ext (UInt32.ext h)

theorem toLowerAscii_toNat_of_upper {c : Char} (h65 : 65 ≤ c.toNat)
    (h90 : c.toNat ≤ 90) : (toLowerAscii c).toNat = c.toNat + 32 := by
  have hv : Nat.isValidChar (c.toNat + 32) := by left; omega
  unfold toLowerAscii
  rw [if_pos ⟨h65, h90⟩]
  simp [Char.ofNat, hv]
  rfl

theorem toLowerAscii_of_not_upper {c : Char}
    (h : ¬(65 ≤ c.toNat ∧ c.toNat ≤ 90)) : toLowerAscii c = c := by
  unfold toLowerAscii
  rw [if_neg h]

theorem toNat_or_of_toLowerAscii {c d : Char} (h : toLowerAscii c = d) :
    c.toNat = d.toNat ∨ (65 ≤ c.toNat ∧ c.toNat ≤ 90 ∧ d.toNat = c.toNat + 32) := by
  by_cases hu : 65 ≤ c.toNat ∧ c.toNat ≤ 90
  · right
    exact ⟨hu.1, hu.2, by rw [← h, toLowerAscii_toNat_of_upper hu.1 hu.2]⟩
  · left
    rw [← h, toLowerAscii_of_not_upper hu]

theorem isSpaceC_toNat {c : Char} (h : isSpaceC c = true) :
    c.toNat = 32 ∨ c.toNat = 9 ∨ c.toNat = 10 ∨ c.toNat = 13 ∨
      c.toNat = 11 ∨ c.toNat = 12 := by
  simp [isSpaceC] at h
  rcases h with ((((h | h) | h) | h) | h) | h <;> subst h <;> decide

theorem isSpaceC_false_of_toNat {c : Char} (h : 33 ≤ c.toNat) :
    isSpaceC c = false := by
  cases hb : isSpaceC c
  · rfl
  · have := isSpaceC_toNat hb
    omega

theorem isSpaceC_of_lower_space {c : Char} (h : toLowerAscii c = ' ') :
    isSpaceC c = true := by
  rcases toNat_or_of_toLowerAscii h with h1 | ⟨h65, _, heq⟩
  · have : c = ' ' := char_eq_of_toNat_eq h1
    subst this; rfl
  · exfalso
    have h32 : (' ' : Char).toNat = 32 := rfl
    omega

theorem isSpaceC_false_of_lower {c d : Char} (h : toLowerAscii c = d)
    (hd : 97 ≤ d.toNat) : isSpaceC c = false := by
  rcases toNat_or_of_toLowerAscii h with h1 | ⟨h65, _, _⟩
  · exact isSpaceC_false_of_toNat (by omega)
  · exact isSpaceC_false_of_toNat (by omega)

theorem isWordC_of_digit {c : Char} (h : isDigitC c = true) : isWordC c = true := by
  have h' : c.isDigit = true := h
  simp [isWordC, Char.isAlphanum, h']

/-!
## Parser computation lemmas
-/

theorem pch_cons_pos {p : Char → Bool} {c : Char} (s : Str) (h : p c = true) :
    pch p (c :: s) = [([c], s)] := by
  simp [pch, h]

theorem pseq_sing {a : PM} (b : PM) {s r1 m1 : Str} (h1 : a s = [(m1, r1)]) :
    pseq a b s = (b r1).map fun qr => (m1 ++ qr.1, qr.2) := by
  simp [pseq, h1]

theorem plitsCI_complete : ∀ (lit w rest : Str), w.map toLowerAscii = lit →
    plitsCI lit (w ++ rest) = [(w, rest)] := by
  intro lit
  induction lit with
  | nil =>
    intro w rest h
    have hw : w = [] := by
      cases w with
      | nil => rfl
      | cons a w => simp at h
    subst hw
    rfl
  | cons c cs ih =>
    intro w rest h
    cases w with
    | nil => simp at h
    | cons a w =>
      simp only [List.map_cons, List.cons.injEq] at h
      obtain ⟨h1, h2⟩ := h
      show pseq (pch fun x => toLowerAscii x = c) (plitsCI cs) (a :: (w ++ rest)) = _
      rw [pseq_sing _ (pch_cons_pos _ (by simp [h1]))]
      rw [ih w rest h2]
      simp

theorem pplus_one {p : Char → Bool} {a : Char} {s : Str} (ha : p a = true)
    (hs : s.takeWhile p = []) : pplus p (a :: s) = [([a], s)] := by
  unfold pplus patleast
  rw [List.takeWhile_cons_of_pos ha, hs]
  rfl

theorem prep_succ (a : PM) (k : Nat) : prep (k + 1) a = pseq a (prep k a) := rfl

theorem prep_pch {p : Char → Bool} : ∀ (n : Nat) (digs rest : Str),
    digs.length = n → (∀ c ∈ digs, p c = true) →
    prep n (pch p) (digs ++ rest) = [(digs, rest)] := by
  intro n
  induction n with
  | zero =>
    intro digs rest hlen _
    have : digs = [] := List.length_eq_zero.mp hlen
    subst this
    rfl
  | succ k ih =>
    intro digs rest hlen hall
    cases digs with
    | nil => simp at hlen
    | cons a digs =>
      have ha := hall a (by simp)
      rw [prep_succ, List.cons_append,
        pseq_sing _ (pch_cons_pos _ ha),
        ih digs rest (by simpa using hlen) (fun c hc => hall c (by simp [hc]))]
      simp

theorem reSearch_cons (p : RePat) (c : Char) (r : Str) :
    reSearch p (c :: r)
      = (((p.pm (c :: r)).any fun pr => p.endOk pr.2) || reSearch p r) := rfl

/-- If some start position admits a match, `re.search` succeeds. -/
theorem reSearch_append_of_match (p : RePat) (pre suf : Str)
    (h : ((p.pm suf).any fun pr => p.endOk pr.2) = true) :
    reSearch p (pre ++ suf) = true := by
  induction pre with
  | nil =>
    cases suf with
    | nil => exact h
    | cons c r =>
      rw [List.nil_append, reSearch_cons, h, Bool.true_or]
  | cons c pre ih =>
    rw [List.cons_append, reSearch_cons, ih, Bool.or_true]

/-- The `(?i)(drop\s+table)` parser succeeds, consuming exactly `w`, on any
input starting with a case variant `w` of `"drop table"`. -/
theorem reDropTable_matches (w post : Str)
    (hw : w.map toLowerAscii = "drop table".toList) :
    reDropTable.pm (w ++ post) = [(w, post)] := by
  have h4 : (w.take 4).map toLowerAscii = "drop".toList := by
    rw [List.map_take, hw]; rfl
  have h5 : (w.drop 4).map toLowerAscii = " table".toList := by
    rw [List.map_drop, hw]; rfl
  obtain ⟨a, t, hsplit, halow, htlow⟩ := List.map_eq_cons_iff.mp h5
  obtain ⟨b, t', hsplit2, hblow, _⟩ := List.map_eq_cons_iff.mp htlow
  have hw_eq : w = w.take 4 ++ (a :: t) := by
    rw [← hsplit, List.take_append_drop]
  have hsp : isSpaceC a = true := isSpaceC_of_lower_space halow
  have hbns : isSpaceC b = false :=
    isSpaceC_false_of_lower hblow (by decide)
  have c1 : plitsCI "drop".toList (w.take 4 ++ (a :: (t ++ post)))
      = [(w.take 4, a :: (t ++ post))] := plitsCI_complete _ _ _ h4
  have c2 : pplus isSpaceC (a :: (t ++ post)) = [([a], t ++ post)] := by
    apply pplus_one hsp
    rw [hsplit2, List.cons_append, List.takeWhile_cons_of_neg (by simp [hbns])]
  have c3 : plitsCI "table".toList (t ++ post) = [(t, post)] :=
    plitsCI_complete _ _ _ htlow
  have hin : w ++ post = w.take 4 ++ (a :: (t ++ post)) := by
    conv_lhs => rw [hw_eq]
    simp
  show pseqs [plitsCI "drop".toList, pplus isSpaceC, plitsCI "table".toList]
      (w ++ post) = [(w, post)]
  rw [hin]
  show pseq (plitsCI "drop".toList)
      (pseq (pplus isSpaceC) (pseq (plitsCI "table".toList) pnil)) _ = _
  rw [pseq_sing _ c1, pseq_sing _ c2, pseq_sing _ c3]
  conv_rhs => rw [hw_eq]
  simp [pnil]

/-- The SSN parser consumes exactly a 3-2-4 digit group at the start of the
input. -/
theorem piiSsn_pm (d1 d2 d3 d4 d5 d6 d7 d8 d9 : Char) (post : Str)
    (h : ∀ c ∈ [d1, d2, d3, d4, d5, d6, d7, d8, d9], isDigitC c = true) :
    piiSsn.pm ([d1, d2, d3, '-', d4, d5, '-', d6, d7, d8, d9] ++ post)
      = [([d1, d2, d3, '-', d4, d5, '-', d6, d7, d8, d9], post)] := by
  have c1 : prep 3 (pch isDigitC)
      (d1 :: d2 :: d3 :: '-' :: d4 :: d5 :: '-' :: d6 :: d7 :: d8 :: d9 :: post)
      = [([d1, d2, d3], '-' :: d4 :: d5 :: '-' :: d6 :: d7 :: d8 :: d9 :: post)] := by
    simpa using prep_pch 3 [d1, d2, d3]
      ('-' :: d4 :: d5 :: '-' :: d6 :: d7 :: d8 :: d9 :: post) rfl
      (by intro c hc; apply h; simp only [List.mem_cons] at hc ⊢; tauto)
  have c2 : plitc '-' ('-' :: d4 :: d5 :: '-' :: d6 :: d7 :: d8 :: d9 :: post)
      = [(['-'], d4 :: d5 :: '-' :: d6 :: d7 :: d8 :: d9 :: post)] :=
    pch_cons_pos _ (by simp)
  have c3 : prep 2 (pch isDigitC) (d4 :: d5 :: '-' :: d6 :: d7 :: d8 :: d9 :: post)
      = [([d4, d5], '-' :: d6 :: d7 :: d8 :: d9 :: post)] := by
    simpa using prep_pch 2 [d4, d5] ('-' :: d6 :: d7 :: d8 :: d9 :: post) rfl
      (by intro c hc; apply h; simp only [List.mem_cons] at hc ⊢; tauto)
  have c4 : plitc '-' ('-' :: d6 :: d7 :: d8 :: d9 :: post)
      = [(['-'], d6 :: d7 :: d8 :: d9 :: post)] := pch_cons_pos _ (by simp)
  have c5 : prep 4 (pch isDigitC) (d6 :: d7 :: d8 :: d9 :: post)
      = [([d6, d7, d8, d9], post)] := by
    simpa using prep_pch 4 [d6, d7, d8, d9] post rfl
      (by intro c hc; apply h; simp only [List.mem_cons] at hc ⊢; tauto)
  have hin : [d1, d2, d3, '-', d4, d5, '-', d6, d7, d8, d9] ++ post
      = d1 :: d2 :: d3 :: '-' :: d4 :: d5 :: '-' :: d6 :: d7 :: d8 :: d9 :: post := by
    simp
  show pseqs [prep 3 (pch isDigitC), plitc '-', prep 2 (pch isDigitC),
      plitc '-', prep 4 (pch isDigitC)] _ = _
  rw [hin]
  show pseq (prep 3 (pch isDigitC)) (pseq (plitc '-') (pseq (prep 2 (pch isDigitC))
      (pseq (plitc '-') (pseq (prep 4 (pch isDigitC)) pnil)))) _ = _
  rw [pseq_sing _ c1, pseq_sing _ c2, pseq_sing _ c3, pseq_sing _ c4,
    pseq_sing _ c5]
  simp [pnil]

theorem prevAt_cons (prev : Option Char) (c : Char) (pre : Str) :
    prevAt prev (c :: pre) = prevAt (some c) pre := by
  cases pre with
  | nil => rfl
  | cons d pre =>
    unfold prevAt
    rw [List.getLast?_cons_cons]
    cases hgl : (d :: pre).getLast? with
    | none => simp at hgl
    | some e => rfl

theorem findAt_piiSsn (prev : Option Char) (d1 d2 d3 d4 d5 d6 d7 d8 d9 : Char)
    (post : Str)
    (hd : ∀ c ∈ [d1, d2, d3, d4, d5, d6, d7, d8, d9], isDigitC c = true)
    (hprev : isWordO prev = false) (hpost : headWord post = false) :
    findAt piiSsn prev ([d1, d2, d3, '-', d4, d5, '-', d6, d7, d8, d9] ++ post)
      = some ([d1, d2, d3, '-', d4, d5, '-', d6, d7, d8, d9], post) := by
  have hpm := piiSsn_pm d1 d2 d3 d4 d5 d6 d7 d8 d9 post hd
  have hw1 : isWordC d1 = true := isWordC_of_digit (hd d1 (by simp))
  have hw9 : isWordC d9 = true := isWordC_of_digit (hd d9 (by simp))
  have hsb : startBoundaryOk prev
      ([d1, d2, d3, '-', d4, d5, '-', d6, d7, d8, d9] ++ post) = true := by
    simp [startBoundaryOk, hprev, headWord, hw1]
  have heb : endBoundaryOk [d1, d2, d3, '-', d4, d5, '-', d6, d7, d8, d9] post
      = true := by
    simp [endBoundaryOk, List.getLast?_cons_cons, hw9, hpost]
  have hstartB : piiSsn.startB = true := rfl
  have hendB : piiSsn.endB = true := rfl
  have hin : [d1, d2, d3, '-', d4, d5, '-', d6, d7, d8, d9] ++ post
      = d1 :: d2 :: d3 :: '-' :: d4 :: d5 :: '-' :: d6 :: d7 :: d8 :: d9 :: post := by
    simp
  rw [hin] at hsb hpm
  simp [findAt, hstartB, hendB, hsb, hpm, List.find?, heb]

theorem findallAux_succ_some (p : PiiPat) (k : Nat) (prev : Option Char)
    (s m r : Str)
    (hfa : findAt p prev s = some (m, r)) (hne : m.isEmpty = false) :
    findallAux p (k + 1) prev s = m :: findallAux p k m.getLast? r := by
  simp [findallAux, hfa, hne]

theorem findallAux_succ_none (p : PiiPat) (k : Nat) (prev : Option Char)
    (c : Char) (t : Str) (hfa : findAt p prev (c :: t) = none) :
    findallAux p (k + 1) prev (c :: t) = findallAux p k (some c) t := by
  simp [findallAux, hfa]

theorem findallAux_succ_emp (p : PiiPat) (k : Nat) (prev : Option Char)
    (c : Char) (t r : Str) (hfa : findAt p prev (c :: t) = some ([], r)) :
    findallAux p (k + 1) prev (c :: t) = findallAux p k (some c) t := by
  simp [findallAux, hfa]

/-- If some position of the input admits a (nonempty) `findAt` match, the
`findall` scan returns a nonempty list. -/
theorem findallAux_ne_nil (p : PiiPat) : ∀ (fuel : Nat) (prev : Option Char)
    (s : Str), s.length < fuel →
    (∃ pre suf m r, s = pre ++ suf ∧ m ≠ [] ∧
        findAt p (prevAt prev pre) suf = some (m, r)) →
    findallAux p fuel prev s ≠ [] := by
  intro fuel
  induction fuel with
  | zero => intro prev s hlen _; omega
  | succ k ih =>
    intro prev s hlen hex
    obtain ⟨pre, suf, mm, r, hs, hmm, hfind⟩ := hex
    cases pre with
    | nil =>
      rw [List.nil_append] at hs
      subst hs
      have hfind' : findAt p prev s = some (mm, r) := by
        simpa [prevAt] using hfind
      have hne : mm.isEmpty = false := by
        simpa [List.isEmpty_iff] using hmm
      rw [findallAux_succ_some p k prev s mm r hfind' hne]
      exact List.cons_ne_nil _ _
    | cons c pre =>
      subst hs
      rw [List.cons_append]
      have hlen' : (pre ++ suf).length < k := by
        rw [List.cons_append, List.length_cons] at hlen
        omega
      have hnext : ∃ pre' suf' m' r', pre ++ suf = pre' ++ suf' ∧ m' ≠ [] ∧
          findAt p (prevAt (some c) pre') suf' = some (m', r') :=
        ⟨pre, suf, mm, r, rfl, hmm, by rw [← prevAt_cons]; exact hfind⟩
      cases hfa : findAt p prev (c :: (pre ++ suf)) with
      | none =>
        rw [findallAux_succ_none p k prev c (pre ++ suf) hfa]
        exact ih (some c) (pre ++ suf) hlen' hnext
      | some x =>
        obtain ⟨m0, r0⟩ := x
        by_cases hm0 : m0 = []
        · subst hm0
          rw [findallAux_succ_emp p k prev c (pre ++ suf) r0 hfa]
          exact ih (some c) (pre ++ suf) hlen' hnext
        · have hne : m0.isEmpty = false := by
            simpa [List.isEmpty_iff] using hm0
          rw [findallAux_succ_some p k prev _ m0 r0 hfa hne]
          exact List.cons_ne_nil _ _

/-- Any text containing a 3-2-4 digit group flanked by non-word characters
(or the text edges) yields a nonempty SSN `findall`. -/
theorem findall_piiSsn_ne_nil (pre post : Str)
    (d1 d2 d3 d4 d5 d6 d7 d8 d9 : Char)
    (hd : ∀ c ∈ [d1, d2, d3, d4, d5, d6, d7, d8, d9], isDigitC c = true)
    (hpre : ∀ c, pre.getLast? = some c → isWordC c = false)
    (hpost : ∀ c, post.head? = some c → isWordC c = false) :
    findall piiSsn (pre ++ ([d1, d2, d3, '-', d4, d5, '-', d6, d7, d8, d9] ++ post))
      ≠ [] := by
  have hprev : isWordO (prevAt none pre) = false := by
    unfold prevAt
    cases hgl : pre.getLast? with
    | none => rfl
    | some c => simpa [isWordO] using hpre c hgl
  have hhead : headWord post = false := by
    cases post with
    | nil => rfl
    | cons c t => simpa [headWord] using hpost c rfl
  apply findallAux_ne_nil
  · omega
  · exact ⟨pre, [d1, d2, d3, '-', d4, d5, '-', d6, d7, d8, d9] ++ post,
      [d1, d2, d3, '-', d4, d5, '-', d6, d7, d8, d9], post, rfl, by simp,
      findAt_piiSsn _ d1 d2 d3 d4 d5 d6 d7 d8 d9 post hd hprev hhead⟩

/-!
## The maximum-severity fold absorbs `"critical"`
-/

theorem sevRank_le_three (s : String) : sevRank s ≤ 3 := by
  unfold sevRank
  split_ifs <;> omega

theorem sevMax_critical_right (a : String) : sevMax a "critical" = "critical" := by
  unfold sevMax
  split
  · rfl
  · rename_i h
    by_cases ha : a = "critical"
    · exact ha
    · exfalso
      have h2 : sevRank a ≤ 2 := by
        unfold sevRank
        rw [if_neg ha]
        split_ifs <;> omega
      have h3 : sevRank "critical" = 3 := rfl
      omega

theorem sevMax_critical_left (b : String) : sevMax "critical" b = "critical" := by
  unfold sevMax
  split
  · rename_i h
    exfalso
    have h3 : sevRank "critical" = 3 := rfl
    have := sevRank_le_three b
    omega
  · rfl

theorem foldl_sevMax_critical : ∀ (l : List String) (a : String),
    ("critical" ∈ l ∨ a = "critical") → l.foldl sevMax a = "critical" := by
  intro l
  induction l with
  | nil =>
    intro a h
    rcases h with h | h
    · simp at h
    · simpa using h
  | cons b l ih =>
    intro a h
    rw [List.foldl_cons]
    rcases h with h | h
    · rcases List.mem_cons.mp h with h | h
      · subst h
        exact ih _ (Or.inr (sevMax_critical_right a))
      · exact ih _ (Or.inl h)
    · subst h
      exact ih _ (Or.inr (sevMax_critical_left b))

theorem maxSeverity_critical (l : List String) (h : "critical" ∈ l) :
    maxSeverity l = "critical" :=
  foldl_sevMax_critical l "low" (Or.inl h)

/-!
## Score lemmas
-/

theorem deductionOf_nonneg (sev : String) : 0 ≤ deductionOf sev := by
  unfold deductionOf
  split_ifs <;> norm_num

theorem foldl_deductions (l : List SecEvent) : ∀ a : ℤ,
    l.foldl (fun acc e => acc + deductionOf e.severity) a
      = a + (l.map fun e => deductionOf e.severity).sum := by
  induction l with
  | nil => intro a; simp
  | cons e l ih =>
    intro a
    rw [List.foldl_cons, ih, List.map_cons, List.sum_cons]
    ring

theorem bankersRound_intCast (k : ℤ) : bankersRound (k : ℚ) = k := by
  unfold bankersRound
  norm_num [Int.floor_intCast]

theorem round1_intCast (k : ℤ) : round1 (k : ℚ) = k := by
  unfold round1
  have h : (k : ℚ) * 10 = ((k * 10 : ℤ) : ℚ) := by push_cast; ring
  rw [h, bankersRound_intCast]
  push_cast
  field_simp

theorem calcSecurityScore_eq_spec (m : Monitor) (now : ℚ) :
    calcSecurityScore m now = specSecScore m now := by
  unfold calcSecurityScore specSecScore
  by_cases h : m.security_events.isEmpty
  · rw [if_pos h]
    have he : m.security_events = [] := List.isEmpty_iff.mp h
    rw [he]
    simp
  · rw [if_neg h]
    simp only [foldl_deductions _ 0, zero_add]
    have hS0 : 0 ≤ ((m.security_events.filter
        fun e => e.timestamp > now - 86400).map
          fun e => deductionOf e.severity).sum := by
      apply List.sum_nonneg
      intro x hx
      simp only [List.mem_map] at hx
      obtain ⟨e, _, rfl⟩ := hx
      exact deductionOf_nonneg _
    have hmin : min 100 (max 0 (100 -
        ((m.security_events.filter fun e => e.timestamp > now - 86400).map
          fun e => deductionOf e.severity).sum))
        = max 0 (100 -
        ((m.security_events.filter fun e => e.timestamp > now - 86400).map
          fun e => deductionOf e.severity).sum) := by omega
    rw [hmin, round1_intCast]

theorem specSecScore_bounds (m : Monitor) (now : ℚ) :
    0 ≤ specSecScore m now ∧ specSecScore m now ≤ 100 := by
  unfold specSecScore
  constructor
  · have h1 : (0 : ℤ) ≤ min 100 (max 0 (100 -
        ((m.security_events.filter fun e => e.timestamp > now - 86400).map
          fun e => deductionOf e.severity).sum)) :=
      le_min (by norm_num) (le_max_left _ _)
    exact_mod_cast h1
  · have h2 : min (100 : ℤ) (max 0 (100 -
        ((m.security_events.filter fun e => e.timestamp > now - 86400).map
          fun e => deductionOf e.severity).sum)) ≤ 100 := min_le_left _ _
    exact_mod_cast h2

/-!
## The SDK-HR scanner only emits masked samples
-/

theorem hrBucket_samples (t : String) (p : PiiPat) (text : Str) :
    ∀ f ∈ hrBucket t p text, ∀ s ∈ f.samples,
      ∃ raw, s = maskSensitiveData raw := by
  intro f hf s hs
  unfold hrBucket at hf
  by_cases h : (findall p text).isEmpty
  · simp [h] at hf
  · simp only [h, if_neg, Bool.false_eq_true, not_false_eq_true,
      List.mem_singleton] at hf
    subst hf
    simp only [List.mem_map] at hs
    obtain ⟨raw, _, rfl⟩ := hs
    exact ⟨raw, rfl⟩

/-!
## The claims
-/

/-- C4: for every input, the overall severity returned by
`analyze_request_security` equals the maximum (low < medium < high < critical)
of the severities of all matched threat rules, defaulting to `"low"` when no
rule matches, and the result's `safe` field is true iff `threat_count = 0`. -/
theorem claim_C4 (m : Monitor) (operation : Str) (request_data : RequestData)
    (now : ℚ) :
    (analyze_request_security m operation request_data now).1.severity
      = maxSeverity
        ((analyze_request_security m operation request_data now).1.threats_detected.map
          (·.severity)) ∧
    ((analyze_request_security m operation request_data now).1.safe = true
      ↔ (analyze_request_security m operation request_data now).1.threat_count = 0) := by
  have hchar := threatScan_char (dictGetContent request_data)
  constructor
  · show (threatScan (dictGetContent request_data)).2
      = maxSeverity ((threatScan (dictGetContent request_data)).1.map (·.severity))
    rw [hchar]
    show maxSeverity _ = maxSeverity
      (((matchedRules (dictGetContent request_data)).map mkThreatInfo).map (·.severity))
    rw [List.map_map]
    rfl
  · show ((threatScan (dictGetContent request_data)).1.length == 0) = true
      ↔ (threatScan (dictGetContent request_data)).1.length = 0
    simp

/-- C5: any request whose analyzed content contains the phrase `DROP TABLE`
in any letter case is reported unsafe, with a detected threat of category
`sql_injection` and aggregate severity `"critical"`. -/
theorem claim_C5 (m : Monitor) (operation : Str) (request_data : RequestData)
    (now : ℚ) (pre w post : Str)
    (hcontent : dictGetContent request_data = pre ++ w ++ post)
    (hw : w.map toLowerAscii = "drop table".toList) :
    (analyze_request_security m operation request_data now).1.safe = false ∧
    (∃ t ∈ (analyze_request_security m operation request_data now).1.threats_detected,
        t.type = "sql_injection") ∧
    (analyze_request_security m operation request_data now).1.severity = "critical" := by
  have hsearch : reSearch reDropTable (dictGetContent request_data) = true := by
    rw [hcontent, List.append_assoc]
    apply reSearch_append_of_match
    rw [reDropTable_matches w post hw]
    rfl
  have hmem : ("sql_injection", reDropTable)
      ∈ matchedRules (dictGetContent request_data) := by
    unfold matchedRules
    refine List.mem_filter.mpr ⟨?_, by simpa using hsearch⟩
    simp [threatRules, threatPatterns]
  have hchar := threatScan_char (dictGetContent request_data)
  refine ⟨?_, ?_, ?_⟩
  · show ((threatScan (dictGetContent request_data)).1.length == 0) = false
    rw [hchar]
    have hmm2 : mkThreatInfo ("sql_injection", reDropTable)
        ∈ (matchedRules (dictGetContent request_data)).map mkThreatInfo :=
      List.mem_map_of_mem _ hmem
    have hlen := List.length_pos_of_mem hmm2
    simp only [beq_eq_false_iff_ne]
    show ((matchedRules (dictGetContent request_data)).map mkThreatInfo).length ≠ 0
    omega
  · show ∃ t ∈ (threatScan (dictGetContent request_data)).1, t.type = "sql_injection"
    rw [hchar]
    exact ⟨_, List.mem_map_of_mem _ hmem, rfl⟩
  · show (threatScan (dictGetContent request_data)).2 = "critical"
    rw [hchar]
    apply maxSeverity_critical
    exact List.mem_map.mpr ⟨("sql_injection", reDropTable), hmem, rfl⟩

/-- Witness for C5 at the concrete request
`{"content": "x DROP TABLE y"}`. -/
theorem claim_C5_witness :
    (analyze_request_security mon0 [] [("content", "x DROP TABLE y".toList)] 0).1.safe
      = false ∧
    (∃ t ∈ (analyze_request_security mon0 []
        [("content", "x DROP TABLE y".toList)] 0).1.threats_detected,
      t.type = "sql_injection") ∧
    (analyze_request_security mon0 [] [("content", "x DROP TABLE y".toList)] 0).1.severity
      = "critical" :=
  claim_C5 mon0 [] [("content", "x DROP TABLE y".toList)] 0
    "x ".toList "DROP TABLE".toList " y".toList (by decide) (by decide)

/-- C10: the analysis result depends only on the string conversion of the
`content` entry of `request_data`; all other entries are never scanned. -/
theorem claim_C10 (m : Monitor) (operation : Str) (r1 r2 : RequestData) (now : ℚ)
    (h : dictGetContent r1 = dictGetContent r2) :
    (analyze_request_security m operation r1 now).1.threats_detected
      = (analyze_request_security m operation r2 now).1.threats_detected ∧
    (analyze_request_security m operation r1 now).1.threat_count
      = (analyze_request_security m operation r2 now).1.threat_count ∧
    (analyze_request_security m operation r1 now).1.severity
      = (analyze_request_security m operation r2 now).1.severity ∧
    (analyze_request_security m operation r1 now).1.safe
      = (analyze_request_security m operation r2 now).1.safe := by
  refine ⟨?_, ?_, ?_, ?_⟩
  · show (threatScan (dictGetContent r1)).1 = (threatScan (dictGetContent r2)).1
    rw [h]
  · show (threatScan (dictGetContent r1)).1.length
      = (threatScan (dictGetContent r2)).1.length
    rw [h]
  · show (threatScan (dictGetContent r1)).2 = (threatScan (dictGetContent r2)).2
    rw [h]
  · show ((threatScan (dictGetContent r1)).1.length == 0)
      = ((threatScan (dictGetContent r2)).1.length == 0)
    rw [h]

/-- Witness for C10: a threatening payload placed in a non-`content` field
does not change the analysis. -/
theorem claim_C10_witness :
    (analyze_request_security mon0 []
      [("content", "hi".toList), ("note", "DROP TABLE users".toList)] 0).1.threats_detected
      = (analyze_request_security mon0 [] [("content", "hi".toList)] 0).1.threats_detected ∧
    (analyze_request_security mon0 []
      [("content", "hi".toList), ("note", "DROP TABLE users".toList)] 0).1.threat_count
      = (analyze_request_security mon0 [] [("content", "hi".toList)] 0).1.threat_count ∧
    (analyze_request_security mon0 []
      [("content", "hi".toList), ("note", "DROP TABLE users".toList)] 0).1.severity
      = (analyze_request_security mon0 [] [("content", "hi".toList)] 0).1.severity ∧
    (analyze_request_security mon0 []
      [("content", "hi".toList), ("note", "DROP TABLE users".toList)] 0).1.safe
      = (analyze_request_security mon0 [] [("content", "hi".toList)] 0).1.safe :=
  claim_C10 mon0 [] [("content", "hi".toList), ("note", "DROP TABLE users".toList)]
    [("content", "hi".toList)] 0 (by decide)

/-- C7: `check_data_privacy` derives `compliance_status` as non_compliant if
any detected PII entry has severity high or critical, else warning if any
entry exists, else compliant; the overall severity mirrors the status. -/
theorem claim_C7 (m : Monitor) (text : Str) (now : ℚ) :
    ((check_data_privacy m text now).1.compliance_status
      = if ∃ pii ∈ (check_data_privacy m text now).1.pii_detected,
            pii.severity = "high" ∨ pii.severity = "critical"
        then "non_compliant"
        else if (check_data_privacy m text now).1.pii_detected ≠ [] then "warning"
        else "compliant") ∧
    ((check_data_privacy m text now).1.severity
      = if (check_data_privacy m text now).1.compliance_status = "non_compliant"
        then "high"
        else if (check_data_privacy m text now).1.compliance_status = "warning"
        then "medium"
        else "low") := by
  have hpii : (check_data_privacy m text now).1.pii_detected = scanPii text := rfl
  have hstat : (check_data_privacy m text now).1.compliance_status
      = (if (scanPii text).any
            (fun pii => pii.severity = "high" || pii.severity = "critical")
         then "non_compliant"
         else if !(scanPii text).isEmpty then "warning" else "compliant") := rfl
  have hsev : (check_data_privacy m text now).1.severity
      = (if (scanPii text).any
            (fun pii => pii.severity = "high" || pii.severity = "critical")
         then "high"
         else if !(scanPii text).isEmpty then "medium" else "low") := rfl
  rw [hpii, hstat, hsev]
  by_cases hB : (scanPii text).any
      (fun pii => pii.severity = "high" || pii.severity = "critical") = true
  · have hex : ∃ pii ∈ scanPii text,
        pii.severity = "high" ∨ pii.severity = "critical" := by simpa using hB
    simp [hB, hex]
  · have hnex : ¬ ∃ pii ∈ scanPii text,
        pii.severity = "high" ∨ pii.severity = "critical" := by simpa using hB
    by_cases hE : (scanPii text).isEmpty
    · have hnil : scanPii text = [] := List.isEmpty_iff.mp hE
      simp [hB, hnex, hE, hnil]
    · have hne : scanPii text ≠ [] := by simpa [List.isEmpty_iff] using hE
      simp [hB, hnex, hE, hne]

/-- C9: per call, the only log side effects are: `check_data_privacy` always
appends exactly one `pii_detection` compliance event and leaves the security
log unchanged; `analyze_request_security` appends exactly one
`threat_detection` security event (with the aggregated severity and the
matches in its metadata) when threats were detected, and leaves both logs
unchanged otherwise. -/
theorem claim_C9 (m : Monitor) (operation text : Str)
    (request_data : RequestData) (now : ℚ) :
    (∃ ev : ComplianceEvent,
      (check_data_privacy m text now).2.compliance_logs
        = trimCap (m.compliance_logs ++ [ev]) ∧
      ev.compliance_type = "pii_detection") ∧
    (check_data_privacy m text now).2.security_events = m.security_events ∧
    (analyze_request_security m operation request_data now).2.compliance_logs
      = m.compliance_logs ∧
    (if (analyze_request_security m operation request_data now).1.threat_count = 0
     then (analyze_request_security m operation request_data now).2.security_events
        = m.security_events
     else ∃ ev : SecEvent,
      (analyze_request_security m operation request_data now).2.security_events
        = trimCap (m.security_events ++ [ev]) ∧
      ev.event_type = "threat_detection" ∧
      ev.severity = (analyze_request_security m operation request_data now).1.severity ∧
      ev.metadata = EvMeta.threat operation
        (analyze_request_security m operation request_data now).1.threats_detected
        (dictGetContent request_data).length) := by
  have hm2 : (analyze_request_security m operation request_data now).2
      = (if (threatScan (dictGetContent request_data)).1.isEmpty then m
         else log_security_event m "threat_detection"
           (descThreat (threatScan (dictGetContent request_data)).1.length operation)
           (threatScan (dictGetContent request_data)).2
           (EvMeta.threat operation (threatScan (dictGetContent request_data)).1
             (dictGetContent request_data).length) now) := rfl
  refine ⟨⟨_, rfl, rfl⟩, rfl, ?_, ?_⟩
  · rw [hm2]
    split_ifs <;> rfl
  · split_ifs with h0
    · have hnil : (threatScan (dictGetContent request_data)).1 = [] :=
        List.length_eq_zero.mp h0
      rw [hm2, hnil]
      rfl
    · have hne : (threatScan (dictGetContent request_data)).1 ≠ [] := by
        intro hc
        exact h0 (by rw [show (analyze_request_security m operation request_data
          now).1.threat_count = (threatScan (dictGetContent request_data)).1.length
          from rfl, hc]; rfl)
      rw [hm2, if_neg (by simpa [List.isEmpty_iff] using hne)]
      exact ⟨_, rfl, rfl, rfl, rfl⟩

/-- When the SSN `findall` is nonempty, `check_data_privacy`'s detected-PII
list is nonempty and contains an `ssn` entry of severity `"critical"`. -/
theorem scanPii_ssn (text : Str) (h : findall piiSsn text ≠ []) :
    scanPii text ≠ [] ∧
    ∃ pii ∈ scanPii text, pii.type = "ssn" ∧ pii.severity = "critical" := by
  have hbucket : piiBucket "ssn" piiSsn text
      = [{ type := "ssn", count := (findall piiSsn text).length,
           matchList := (findall piiSsn text).take 5, severity := "critical" }] := by
    unfold piiBucket
    rw [if_neg (by simpa [List.isEmpty_iff] using h)]
    rfl
  have hmem : ({ type := "ssn", count := (findall piiSsn text).length,
                 matchList := (findall piiSsn text).take 5,
                 severity := "critical" } : PiiInfo) ∈ scanPii text := by
    unfold scanPii
    rw [hbucket]
    simp [List.mem_append]
  exact ⟨List.ne_nil_of_mem hmem, ⟨_, hmem, rfl, rfl⟩⟩

/-- C6 counterexample: the text `"12345-67-8901"` contains a well-formed
3-2-4 digit SSN shape as a substring, yet `check_data_privacy` reports it
privacy-safe (the code's pattern requires word boundaries around the SSN). -/
theorem claim_C6_counterexample :
    ("12345-67-8901".toList
      = "12".toList ++ ['3', '4', '5', '-', '6', '7', '-', '8', '9', '0', '1']
        ++ ([] : Str)) ∧
    (∀ c ∈ ['3', '4', '5', '6', '7', '8', '9', '0', '1'], isDigitC c = true) ∧
    (check_data_privacy mon0 "12345-67-8901".toList 0).1.privacy_safe = true := by
  refine ⟨by decide, by decide, ?_⟩
  decide

/-- C6 (amended): for every text containing a well-formed SSN shape
(3 digits, hyphen, 2 digits, hyphen, 4 digits) that is not immediately
preceded or followed by a word character, `check_data_privacy` reports
`privacy_safe = false` and a PII entry of type `ssn` with severity
`critical`. -/
theorem claim_C6_amended (m : Monitor) (now : ℚ) (pre post : Str)
    (d1 d2 d3 d4 d5 d6 d7 d8 d9 : Char)
    (hd : ∀ c ∈ [d1, d2, d3, d4, d5, d6, d7, d8, d9], isDigitC c = true)
    (hpre : ∀ c, pre.getLast? = some c → isWordC c = false)
    (hpost : ∀ c, post.head? = some c → isWordC c = false) :
    (check_data_privacy m
      (pre ++ ([d1, d2, d3, '-', d4, d5, '-', d6, d7, d8, d9] ++ post)) now).1.privacy_safe
      = false ∧
    ∃ pii ∈ (check_data_privacy m
        (pre ++ ([d1, d2, d3, '-', d4, d5, '-', d6, d7, d8, d9] ++ post))
        now).1.pii_detected,
      pii.type = "ssn" ∧ pii.severity = "critical" := by
  have hfa : findall piiSsn
      (pre ++ ([d1, d2, d3, '-', d4, d5, '-', d6, d7, d8, d9] ++ post)) ≠ [] :=
    findall_piiSsn_ne_nil pre post d1 d2 d3 d4 d5 d6 d7 d8 d9 hd hpre hpost
  have h := scanPii_ssn _ hfa
  constructor
  · show ((scanPii
      (pre ++ ([d1, d2, d3, '-', d4, d5, '-', d6, d7, d8, d9] ++ post))).length
        == 0) = false
    simp only [beq_eq_false_iff_ne]
    exact fun hc => h.1 (List.length_eq_zero.mp hc)
  · exact h.2

/-- Witness for the amended C6 at the concrete text `"x 123-45-6789."`. -/
theorem claim_C6_witness :
    (check_data_privacy mon0
      ("x ".toList ++ (['1', '2', '3', '-', '4', '5', '-', '6', '7', '8', '9']
        ++ ".".toList)) 0).1.privacy_safe = false ∧
    ∃ pii ∈ (check_data_privacy mon0
        ("x ".toList ++ (['1', '2', '3', '-', '4', '5', '-', '6', '7', '8', '9']
          ++ ".".toList)) 0).1.pii_detected,
      pii.type = "ssn" ∧ pii.severity = "critical" :=
  claim_C6_amended mon0 0 "x ".toList ".".toList '1' '2' '3' '4' '5' '6' '7' '8' '9'
    (by decide) (by decide) (by decide)

/-- C1 counterexample: the SDK variant's `check_data_privacy` materializes
the raw matched email unmasked in its result, so a raw PII value does leave
the privacy-scanning component. -/
theorem claim_C1_counterexample :
    (check_data_privacy mon0 "john@example.com".toList 0).1.pii_detected
      = [{ type := "email", count := 1,
           matchList := ["john@example.com".toList], severity := "medium" }] ∧
    maskSensitiveData "john@example.com".toList ≠ "john@example.com".toList := by
  constructor
  · decide
  · decide

/-- C1 (amended): the masking function behaves as claimed — values of
length ≤ 4 are fully starred, longer values keep the first and last two
characters with stars in between, preserving length, and
`"john@example.com"` masks to `"jo" ++ 12 stars ++ "om"` — and in the
SDK-HR scanner every sample that leaves `check_data_privacy` is the masked
form of some raw match; the SDK variant instead returns raw matches (see
the counterexample). -/
theorem claim_C1_amended :
    (∀ data : Str, data.length ≤ 4 →
      maskSensitiveData data = List.replicate data.length '*') ∧
    (∀ data : Str, 4 < data.length →
      maskSensitiveData data
        = data.take 2 ++ List.replicate (data.length - 4) '*'
          ++ data.drop (data.length - 2) ∧
      (maskSensitiveData data).length = data.length) ∧
    maskSensitiveData "john@example.com".toList
      = "jo".toList ++ List.replicate 12 '*' ++ "om".toList ∧
    (∀ text : Str, ∀ f ∈ (hrCheckDataPrivacy text).findings, ∀ s ∈ f.samples,
      ∃ raw, s = maskSensitiveData raw) := by
  refine ⟨?_, ?_, by decide, ?_⟩
  · intro data h
    unfold maskSensitiveData
    rw [if_pos h]
  · intro data h
    unfold maskSensitiveData
    rw [if_neg (by omega)]
    refine ⟨rfl, ?_⟩
    simp only [List.length_append, List.length_take, List.length_replicate,
      List.length_drop]
    omega
  · intro text f hf s hs
    have hf' : f ∈ hrBucket "email" piiEmail text ++ hrBucket "phone" hrPiiPhone text
        ++ hrBucket "ssn" piiSsn text
        ++ hrBucket "credit_card" hrPiiCreditCard text := hf
    simp only [List.mem_append] at hf'
    rcases hf' with ((hf' | hf') | hf') | hf'
    · exact hrBucket_samples _ _ _ f hf' s hs
    · exact hrBucket_samples _ _ _ f hf' s hs
    · exact hrBucket_samples _ _ _ f hf' s hs
    · exact hrBucket_samples _ _ _ f hf' s hs

/-- Witness for the amended C1 at concrete values. -/
theorem claim_C1_witness :
    maskSensitiveData "abc".toList = List.replicate "abc".toList.length '*' ∧
    maskSensitiveData "john@example.com".toList
      = "john@example.com".toList.take 2
        ++ List.replicate ("john@example.com".toList.length - 4) '*'
        ++ "john@example.com".toList.drop ("john@example.com".toList.length - 2) ∧
    (∃ raw, maskSensitiveData "a@b.com".toList = maskSensitiveData raw) :=
  ⟨claim_C1_amended.1 "abc".toList (by decide),
   (claim_C1_amended.2.1 "john@example.com".toList (by decide)).1,
   claim_C1_amended.2.2.2 "a@b.com".toList
     { type := "email", count := 1,
       samples := [maskSensitiveData "a@b.com".toList] }
     (by decide) (maskSensitiveData "a@b.com".toList) (by decide)⟩

/-- C2 counterexample: after 1002 appends the security log's ids are not
unique — the id 1001 occurs twice (the code assigns `len + 1`, and after an
eviction the length stays at 1000, so id 1001 is reused). -/
theorem claim_C2_counterexample :
    ¬ ((secAppendN 1002).security_events.map (·.id)).Nodup := by
  rw [secIds_appendN, idIter_1002]
  intro hnd
  rw [List.nodup_append] at hnd
  have h1 : (1001 : ℕ) ∈ List.range' 3 999 := by
    rw [List.mem_range'_1]
    omega
  have h2 : (1001 : ℕ) ∈ [1001] := by simp
  exact hnd.2.2 h1 h2

/-- C2 (amended): each appended event receives id = (current log length)+1,
which equals previous-max-id + 1 only while no eviction has happened; ids
are strictly increasing and unique over the first 1001 appends, and can be
reused afterwards (see the counterexample). -/
theorem claim_C2_amended :
    (∀ (m : Monitor) (et : String) (d : Str) (sv : String) (md : EvMeta) (now : ℚ),
      ∃ ev : SecEvent,
        (log_security_event m et d sv md now).security_events
          = trimCap (m.security_events ++ [ev]) ∧
        ev.id = m.security_events.length + 1) ∧
    (∀ (m : Monitor) (ct st : String) (d : Str) (md : EvMeta) (now : ℚ),
      ∃ ev : ComplianceEvent,
        (log_compliance_event m ct st d md now).compliance_logs
          = trimCap (m.compliance_logs ++ [ev]) ∧
        ev.id = m.compliance_logs.length + 1) ∧
    (∀ n : ℕ, n ≤ 1001 →
      ((secAppendN n).security_events.map (·.id)).Pairwise (· < ·)) ∧
    (∀ n : ℕ, n ≤ 1001 →
      ((complAppendN n).compliance_logs.map (·.id)).Pairwise (· < ·)) := by
  refine ⟨fun m et d sv md now => ⟨_, rfl, rfl⟩,
    fun m ct st d md now => ⟨_, rfl, rfl⟩, ?_, ?_⟩
  · intro n hn
    rw [secIds_appendN, idIter_closed n hn]
    split_ifs
    · exact List.pairwise_lt_range' _ _
    · exact List.pairwise_lt_range' _ _
  · intro n hn
    rw [complIds_appendN, idIter_closed n hn]
    split_ifs
    · exact List.pairwise_lt_range' _ _
    · exact List.pairwise_lt_range' _ _

/-- Witness for the amended C2 after three appends. -/
theorem claim_C2_witness :
    ((secAppendN 3).security_events.map (·.id)).Pairwise (· < ·) ∧
    ((complAppendN 3).compliance_logs.map (·.id)).Pairwise (· < ·) :=
  ⟨claim_C2_amended.2.2.1 3 (by norm_num), claim_C2_amended.2.2.2 3 (by norm_num)⟩

/-- C3: after every append both logs have length at most 1000; appending
1050 events to a fresh monitor leaves exactly the 1000 most recently
appended entries (the 50 oldest are silently dropped from the front). -/
theorem claim_C3 :
    (∀ (m : Monitor) (et : String) (d : Str) (sv : String) (md : EvMeta) (now : ℚ),
      ((log_security_event m et d sv md now).security_events).length ≤ 1000) ∧
    (∀ (m : Monitor) (ct st : String) (d : Str) (md : EvMeta) (now : ℚ),
      ((log_compliance_event m ct st d md now).compliance_logs).length ≤ 1000) ∧
    (appendSecDescs mon0 c3Descs).security_events.length = 1000 ∧
    (appendSecDescs mon0 c3Descs).security_events.map (·.description)
      = c3Descs.drop 50 ∧
    (appendComplDetails mon0 c3Descs).compliance_logs.length = 1000 ∧
    (appendComplDetails mon0 c3Descs).compliance_logs.map (·.details)
      = c3Descs.drop 50 := by
  have hlen : c3Descs.length = 1050 := by simp [c3Descs]
  have hsec := secDescs_appendSecDescs c3Descs mon0 (by simp [mon0])
  have hcom := complDetails_appendComplDetails c3Descs mon0 (by simp [mon0])
  rw [show mon0.security_events.map (·.description) = [] from rfl,
    List.nil_append] at hsec
  rw [show mon0.compliance_logs.map (·.details) = [] from rfl,
    List.nil_append] at hcom
  have hdrop : lastN 1000 c3Descs = c3Descs.drop 50 := by
    unfold lastN
    rw [hlen]
  rw [hdrop] at hsec hcom
  have hlsec := congrArg List.length hsec
  rw [List.length_map, List.length_drop, hlen] at hlsec
  have hlcom := congrArg List.length hcom
  rw [List.length_map, List.length_drop, hlen] at hlcom
  exact ⟨fun m et d sv md now => length_trimCap_le _,
    fun m ct st d md now => length_trimCap_le _,
    by simpa using hlsec, hsec, by simpa using hlcom, hcom⟩

/-- C8: with no events inside the 24-hour window both scores are 100
regardless of older history, and the security score always equals 100 minus
the per-event deductions (critical −20, high −10, medium −5, low −1) over
the window, clamped to [0, 100]. -/
theorem claim_C8 (m : Monitor) (now : ℚ)
    (h1 : ∀ e ∈ m.security_events, e.timestamp ≤ now - 86400)
    (h2 : ∀ e ∈ m.compliance_logs, e.timestamp ≤ now - 86400) :
    calcSecurityScore m now = 100 ∧ calcComplianceScore m now = 100 ∧
    (∀ (m2 : Monitor) (now2 : ℚ),
      calcSecurityScore m2 now2 = specSecScore m2 now2 ∧
      0 ≤ calcSecurityScore m2 now2 ∧ calcSecurityScore m2 now2 ≤ 100) := by
  have hfil : m.security_events.filter (fun e => e.timestamp > now - 86400) = [] := by
    rw [List.filter_eq_nil_iff]
    intro e he
    simp only [decide_eq_true_eq]
    exact not_lt.mpr (h1 e he)
  have hfil2 : m.compliance_logs.filter (fun e => e.timestamp > now - 86400) = [] := by
    rw [List.filter_eq_nil_iff]
    intro e he
    simp only [decide_eq_true_eq]
    exact not_lt.mpr (h2 e he)
  refine ⟨?_, ?_, ?_⟩
  · rw [calcSecurityScore_eq_spec]
    unfold specSecScore
    rw [hfil]
    norm_num
  · unfold calcComplianceScore
    by_cases h : m.compliance_logs.isEmpty
    · rw [if_pos h]
    · rw [if_neg h]
      simp [hfil2]
  · intro m2 now2
    exact ⟨calcSecurityScore_eq_spec m2 now2,
      by rw [calcSecurityScore_eq_spec]; exact (specSecScore_bounds m2 now2).1,
      by rw [calcSecurityScore_eq_spec]; exact (specSecScore_bounds m2 now2).2⟩

/-- Witness for C8: old events outside the window still give both scores 100. -/
theorem claim_C8_witness :
    calcSecurityScore c8WitnessMonitor 100000 = 100 ∧
    calcComplianceScore c8WitnessMonitor 100000 = 100 :=
  ⟨(claim_C8 c8WitnessMonitor 100000
      (by intro e he; simp [c8WitnessMonitor] at he; subst he; norm_num)
      (by intro e he; simp [c8WitnessMonitor] at he; subst he; norm_num)).1,
   (claim_C8 c8WitnessMonitor 100000
      (by intro e he; simp [c8WitnessMonitor] at he; subst he; norm_num)
      (by intro e he; simp [c8WitnessMonitor] at he; subst he; norm_num)).2.1⟩

end Sec

